import Mathlib

/-!
# yobot_paintpp: boss data aggregation, progress geometry and the paint event loop

A shallow embedding of `yobot_bossData.cpp`, `yobot_paint.cpp` and the request
helpers of `main.cpp`.

Modelling conventions
* The aggregation code is embedded twice. `fetchBossDataJson` and `updateBossDataJson`
  work on values of `Json` and end with the exception of the JSON library (or with
  undefined behaviour) wherever the source does. `fetchBossData` and `updateBossData`
  are their typed reading, on bodies of the shape the service documents: a lap range is
  a pair of integers, a roster entry is a record, a response body is either unparseable
  or a list of event records. `fetchBossDataJson_typed` and `updateBossDataJson_typed`
  show that the two agree on every body with a typed reading.
* `std::int8_t` / `char` counters wrap modulo `2^8`, `std::uint64_t` modulo `2^64`.
* Exceptions and undefined behaviour are results of type `Except`.
* A `float` is a rational, an infinity or a NaN; every finite result passes through a
  rounding function, which is a parameter (`Rounding.exact` is exact arithmetic).
* The event source is the list of events `SDL_WaitEvent` delivers; a promise is named
  by a number and its future is ready once `set_value` has been called for it.
* The graphics state is the cached panel `m_panel` and what the render target holds;
  SDL draw calls that fail (a null texture) draw nothing, as their results are ignored.
* `system_clock::now().time_since_epoch().count()` is an input of the request code: a
  count of clock ticks, whose length the standard library chooses.
* The two `tbb::parallel_for` stages are run in a fixed order; every task of the
  first stage writes only its own tuple and inserts into the shared id set, every
  task of the second stage writes only the files of the identifiers it visits.
-/

namespace yobot

/-! ## Machine integers -/

/-- Value of an integer after conversion to `char` / `std::int8_t` (8 bits, two's complement). -/
def toInt8 (n : Int) : Int := (n + 128) % 256 - 128

/-- Value of an integer after conversion to `std::uint64_t`. -/
def toUInt64 (n : Int) : Nat := (n % 18446744073709551616).toNat

/-! ## Data model (`yobot_bossData.h`) -/

/-- The regions of `yobot::area`. -/
inductive Area where
  | cn
  | tw
  | jp
deriving DecidableEq, Repr

/-- The string constant of a region. -/
def Area.name : Area → String
  | .cn => "cn"
  | .tw => "tw"
  | .jp => "jp"

/-- A lap range, the JSON array `[lapFrom, lapTo]`. -/
abbrev LapRange := Int × Int

/-- The JSON object returned by `updateBossData`: five members, each keyed by region. -/
structure BossData where
  boss_hp : Area → List (List Int)
  lap_range : Area → List LapRange
  boss_id : Area → List Int
  boss_name : Area → List String
  time_range : Area → List Int

/-- The per-region tuple `BoosData` filled by `fetchBossData`. -/
structure BoosData where
  itArea : Area
  itBossHP : List (List Int)
  itLapRange : List LapRange
  itBossId : List Int
  itBossName : List String
  itTimeRange : List Int
deriving DecidableEq, Repr

/-! ## Responses of the metadata service -/

/-- One entry of a phase's `bosses` array, in its typed reading (`Boss.ofJson`). -/
structure Boss where
  unitId : Int
  name : String
  hp : Int
deriving DecidableEq, Repr

/-- One entry of the `phases` array, in its typed reading (`Phase.ofJson`). -/
structure Phase where
  bosses : List Boss
  lapFrom : Int
  lapTo : Int
deriving DecidableEq, Repr

/-- One clan battle record, in its typed reading (`ClanBattleInfo.ofJson`); `phases` is
`none` when the member is not a JSON array. -/
structure ClanBattleInfo where
  phases : Option (List Phase)
  startTime : String
  endTime : String
deriving DecidableEq, Repr

/-- A response body as `json::parse` sees it, in its typed reading: unparseable, or a
list of records. -/
inductive Body where
  | malformed
  | infos (l : List ClanBattleInfo)
deriving DecidableEq, Repr

/-- A received HTTP response. -/
structure Response (β : Type) where
  status : Nat
  body : β
deriving DecidableEq, Repr

/-- The status `httplib::OK_200`. -/
def OK_200 : Nat := 200

/-- Abnormal terminations of the aggregation code: the exceptions `json::parse_error`,
`json::type_error` and `json::invalid_iterator` of the JSON library, and undefined
behaviour (an end iterator dereferenced, a conversion out of range). -/
inductive Fault where
  | parse_error
  | type_error
  | invalid_iterator
  | undefined_behaviour
deriving DecidableEq, Repr

/-! ## `getPhase` -/

/-- The loop of `getPhase`: `ret` is the `char` counter, incremented for every
range that does not contain `lap`. -/
def getPhaseLoop (lap : Int) : List LapRange → Int → Int
  | [], ret => ret
  | range :: rest, ret =>
    if range.1 ≤ lap ∧ lap ≤ range.2 then ret
    else getPhaseLoop lap rest (toInt8 (ret + 1))

/-- The function `getPhase(bossData, lap, gameServer)`, returning `std::int8_t`. -/
def getPhase (bossData : BossData) (lap : Int) (gameServer : Area) : Int :=
  toInt8 (getPhaseLoop lap (bossData.lap_range gameServer) 0)

/-! ## `fetchBossData` -/

/-- Insertion into the shared `concurrent_unordered_set`, listed in insertion order. -/
def insertId (idSet : List Int) (id : Int) : List Int :=
  if id ∈ idSet then idSet else idSet ++ [id]

/-- The assignment `*(itLapRange.rbegin()->rbegin()) = 999`. -/
def setLastLapTo : List LapRange → List LapRange
  | [] => []
  | [r] => [(r.1, 999)]
  | r :: r2 :: rs => r :: setLastLapTo (r2 :: rs)

/-- The function `fetchBossData(bossData, idSet)` on typed records; `result` is the
outcome of the `GET`, `none` when no response arrived. The type errors of the JSON
library cannot arise on typed records: `fetchBossDataJson` is the function on JSON
values, with them, and computes this one on every body with a typed reading. -/
def fetchBossData (toSeconds : String → Int) (result : Option (Response Body))
    (bossData : BoosData) (idSet : List Int) : Except Fault (BoosData × List Int) :=
  match result with
  | none => .ok (bossData, idSet)
  | some r =>
    if r.status = OK_200 then
      match r.body with
      | .malformed => .error .parse_error
      | .infos clanBattleInfo =>
        match clanBattleInfo.getLast? with
        | none => .error .undefined_behaviour
        | some lastInfo =>
          match lastInfo.phases with
          | none => .ok (bossData, idSet)
          | some [] => .error .undefined_behaviour
          | some (first :: rest) =>
            .ok ({ itArea := bossData.itArea
                   itBossHP := bossData.itBossHP ++
                     (first :: rest).map (fun p => p.bosses.map (fun b => b.hp))
                   itLapRange := setLastLapTo (bossData.itLapRange ++
                     (first :: rest).map (fun p => (p.lapFrom, p.lapTo)))
                   itBossId := bossData.itBossId ++ first.bosses.map (fun b => b.unitId)
                   itBossName := bossData.itBossName ++ first.bosses.map (fun b => b.name)
                   itTimeRange := [toSeconds lastInfo.startTime, toSeconds lastInfo.endTime] },
                 first.bosses.foldl (fun s b => insertId s b.unitId) idSet)
    else .ok (bossData, idSet)

/-! ## `fetchBossIcon` -/

/-- The asset store: the content of each path, `none` when no file exists. -/
abbrev FileStore := String → Option String

/-- The constant `IconDir`. -/
def IconDir : String := "icon"

/-- The file name `std::to_string(id) + ".webp"`. -/
def iconFilename (id : Int) : String := toString id ++ ".webp"

/-- The path `std::filesystem::path(IconDir) / filename`. -/
def iconFilepath (id : Int) : String := IconDir ++ "/" ++ iconFilename id

/-- The request path `"/icon/unit/" + filename`. -/
def iconRequest (id : Int) : String := "/icon/unit/" ++ iconFilename id

/-- Writing a file: `std::ofstream(filepath, std::ios::binary) << body`; the directory
`icon` exists (`InitEnv` creates it), so the file is created or replaced. -/
def writeFile (store : FileStore) (path content : String) : FileStore :=
  fun p => if p = path then some content else store p

/-- The function `fetchBossIcon(range)`: `get` answers the icon requests, the
second component lists the requests issued, in order. -/
def fetchBossIcon (get : String → Option (Response String)) :
    List Int → FileStore × List String → FileStore × List String
  | [], st => st
  | id :: range, (store, requests) =>
    if (store (iconFilepath id)).isSome then fetchBossIcon get range (store, requests)
    else
      match get (iconRequest id) with
      | none => fetchBossIcon get range (store, requests ++ [iconRequest id])
      | some r =>
        if r.status = OK_200 then
          fetchBossIcon get range
            (writeFile store (iconFilepath id) r.body, requests ++ [iconRequest id])
        else fetchBossIcon get range (store, requests ++ [iconRequest id])

/-! ## `updateBossData` -/

/-- The collaborators of a refresh: the metadata service and the icon service. -/
structure Network where
  clanBattleInfos : Area → Option (Response Body)
  icon : String → Option (Response String)

/-- What a refresh leaves behind: the returned JSON, the identifiers the icon stage
visited (in visiting order), the asset store and the icon requests issued. -/
structure Refresh where
  jbossData : BossData
  visited : List Int
  store : FileStore
  requests : List String

/-- The initial tuple `{area, {}, {}, {}, {}, {}}`. -/
def emptyBoosData (a : Area) : BoosData :=
  { itArea := a, itBossHP := [], itLapRange := [], itBossId := [], itBossName := [],
    itTimeRange := [] }

/-- Selection of the tuple of a region among the three of `vBossData`. -/
def tupleOf (cn tw jp : BoosData) : Area → BoosData
  | .cn => cn
  | .tw => tw
  | .jp => jp

/-- The function `updateBossData()` on typed records. An exception or undefined
behaviour in any region task leaves the whole call without a result. -/
def updateBossData (toSeconds : String → Int) (net : Network) (store : FileStore) :
    Except Fault Refresh :=
  match fetchBossData toSeconds (net.clanBattleInfos .cn) (emptyBoosData .cn) [] with
  | .error f => .error f
  | .ok (cn, s1) =>
    match fetchBossData toSeconds (net.clanBattleInfos .tw) (emptyBoosData .tw) s1 with
    | .error f => .error f
    | .ok (tw, s2) =>
      match fetchBossData toSeconds (net.clanBattleInfos .jp) (emptyBoosData .jp) s2 with
      | .error f => .error f
      | .ok (jp, idSet) =>
        let icons := fetchBossIcon net.icon idSet (store, [])
        .ok { jbossData :=
                { boss_hp := fun a => (tupleOf cn tw jp a).itBossHP
                  lap_range := fun a => (tupleOf cn tw jp a).itLapRange
                  boss_id := fun a => (tupleOf cn tw jp a).itBossId
                  boss_name := fun a => (tupleOf cn tw jp a).itBossName
                  time_range := fun a => (tupleOf cn tw jp a).itTimeRange }
              visited := idSet
              store := icons.1
              requests := icons.2 }

/-! ## JSON values (`nlohmann::json`) -/

/-- Value of an integer after conversion to `std::int64_t` (`json::number_integer_t`). -/
def toInt64 (n : Int) : Int :=
  (n + 9223372036854775808) % 18446744073709551616 - 9223372036854775808

/-- A value of `nlohmann::json`. `number` is an integer (`number_integer` or
`number_unsigned`), `number_float` a finite `double`; an object lists its members in
iteration order, which is key order, every key once. -/
inductive Json where
  | null
  | boolean (b : Bool)
  | number (n : Int)
  | number_float (x : ℚ)
  | string (s : String)
  | array (elements : List Json)
  | object (members : List (String × Json))

/-- The conversion `static_cast<std::int64_t>` of a `double`: the fraction is dropped,
and the behaviour is undefined when the result is not representable. -/
def truncate (x : ℚ) : Except Fault Int :=
  if -9223372036854775808 ≤ x.num.tdiv x.den ∧ x.num.tdiv x.den ≤ 9223372036854775807 then
    .ok (x.num.tdiv x.den)
  else .error .undefined_behaviour

/-- The element `*(j.rbegin())`: the last element of an array, the value of the last
member of an object, a scalar itself; `null` has no element (`invalid_iterator`), and
on an empty array or object an end iterator is dereferenced. -/
def Json.last : Json → Except Fault Json
  | .null => .error .invalid_iterator
  | .array elements =>
    match elements.getLast? with
    | none => .error .undefined_behaviour
    | some element => .ok element
  | .object members =>
    match members.getLast? with
    | none => .error .undefined_behaviour
    | some member => .ok member.2
  | j => .ok j

/-- The member `j[key]` of a non-const value: an absent member is inserted as `null`,
`null` becomes an object first, every other value throws `type_error`. The inserted
members are `null` and are read under their own key only, so the value is not threaded. -/
def Json.index (key : String) : Json → Except Fault Json
  | .null => .ok .null
  | .object members => .ok ((members.lookup key).getD .null)
  | _ => .error .type_error

/-- The values a range-based `for` visits: the elements of an array, the member values
of an object, nothing for `null`, a scalar itself. -/
def Json.items : Json → List Json
  | .null => []
  | .array elements => elements
  | .object members => members.map (fun member => member.2)
  | j => [j]

/-- The conversion `j.get<json::number_integer_t>()`: defined on numbers, `type_error`
on every other value. -/
def Json.get_number_integer : Json → Except Fault Int
  | .number n => .ok (toInt64 n)
  | .number_float x => truncate x
  | _ => .error .type_error

/-- The function `toSeconds(t)`: `t.get<std::string>()` throws `type_error` unless `t`
is a string; `parse` is the reading of the string by `std::chrono::parse`, in seconds
since the epoch. -/
def toSeconds (parse : String → Int) : Json → Except Fault Int
  | .string s => .ok (parse s)
  | _ => .error .type_error

/-! ## `fetchBossData` and `updateBossData` on JSON values -/

/-- The per-region tuple `BoosData` with its arrays of JSON values: identifiers and
times are the integers the code converted, a lap range is the two values of the array
`[lapFrom, lapTo]`. -/
structure JsonBoosData where
  itArea : Area
  itBossHP : List (List Json)
  itLapRange : List (Json × Json)
  itBossId : List Int
  itBossName : List Json
  itTimeRange : List Int

/-- The JSON object returned by `updateBossData`, by member and region. -/
structure JsonBossData where
  boss_hp : Area → List (List Json)
  lap_range : Area → List (Json × Json)
  boss_id : Area → List Int
  boss_name : Area → List Json
  time_range : Area → List Int

/-- A response body as `json::parse` reads it: a `parse_error`, or a value. -/
inductive JsonBody where
  | malformed
  | value (j : Json)

/-- The first loop of `fetchBossData`, over the `bosses` of the first phase. -/
def rosterLoop : List Json → List Int × List Json × List Int →
    Except Fault (List Int × List Json × List Int)
  | [], st => .ok st
  | boss :: rest, (itBossId, itBossName, idSet) =>
    match boss.index "unitId" with
    | .error f => .error f
    | .ok unitId =>
      match unitId.get_number_integer with
      | .error f => .error f
      | .ok id =>
        match boss.index "name" with
        | .error f => .error f
        | .ok name => rosterLoop rest (itBossId ++ [id], itBossName ++ [name], insertId idSet id)

/-- The inner loop of the second loop: the array `bossHP` of one phase. -/
def hpLoop : List Json → List Json → Except Fault (List Json)
  | [], bossHP => .ok bossHP
  | boss :: rest, bossHP =>
    match boss.index "hp" with
    | .error f => .error f
    | .ok hp => hpLoop rest (bossHP ++ [hp])

/-- The second loop of `fetchBossData`, over all phases. -/
def phaseLoop : List Json → List (List Json) × List (Json × Json) →
    Except Fault (List (List Json) × List (Json × Json))
  | [], st => .ok st
  | ait :: rest, (itBossHP, itLapRange) =>
    match ait.index "bosses" with
    | .error f => .error f
    | .ok bosses =>
      match hpLoop bosses.items [] with
      | .error f => .error f
      | .ok bossHP =>
        match ait.index "lapFrom" with
        | .error f => .error f
        | .ok lapFrom =>
          match ait.index "lapTo" with
          | .error f => .error f
          | .ok lapTo => phaseLoop rest (itBossHP ++ [bossHP], itLapRange ++ [(lapFrom, lapTo)])

/-- The assignment `*(itLapRange.rbegin()->rbegin()) = 999` on JSON values. -/
def assignLastLapTo : List (Json × Json) → List (Json × Json)
  | [] => []
  | [r] => [(r.1, .number 999)]
  | r :: r2 :: rs => r :: assignLastLapTo (r2 :: rs)

/-- The function `fetchBossData(bossData, idSet)` on JSON values, statement by
statement; `result` is the outcome of the `GET`, `none` when no response arrived. -/
def fetchBossDataJson (parse : String → Int) (result : Option (Response JsonBody))
    (bossData : JsonBoosData) (idSet : List Int) : Except Fault (JsonBoosData × List Int) :=
  match result with
  | none => .ok (bossData, idSet)
  | some r =>
    if r.status = OK_200 then
      match r.body with
      | .malformed => .error .parse_error
      | .value clanBattleInfo =>
        match clanBattleInfo.last with
        | .error f => .error f
        | .ok lastInfo =>
          match lastInfo.index "phases" with
          | .error f => .error f
          | .ok (.array []) => .error .undefined_behaviour
          | .ok (.array (ait :: more)) =>
            match ait.index "bosses" with
            | .error f => .error f
            | .ok bosses =>
              match rosterLoop bosses.items (bossData.itBossId, bossData.itBossName, idSet) with
              | .error f => .error f
              | .ok (itBossId, itBossName, ids) =>
                match phaseLoop (ait :: more) (bossData.itBossHP, bossData.itLapRange) with
                | .error f => .error f
                | .ok (itBossHP, itLapRange) =>
                  match lastInfo.index "startTime" with
                  | .error f => .error f
                  | .ok startTime =>
                    match toSeconds parse startTime with
                    | .error f => .error f
                    | .ok t0 =>
                      match lastInfo.index "endTime" with
                      | .error f => .error f
                      | .ok endTime =>
                        match toSeconds parse endTime with
                        | .error f => .error f
                        | .ok t1 =>
                          .ok ({ itArea := bossData.itArea
                                 itBossHP := itBossHP
                                 itLapRange := assignLastLapTo itLapRange
                                 itBossId := itBossId
                                 itBossName := itBossName
                                 itTimeRange := [t0, t1] }, ids)
          | .ok _ => .ok (bossData, idSet)
    else .ok (bossData, idSet)

/-- The collaborators of a refresh, the metadata service answering with JSON text. -/
structure JsonNetwork where
  clanBattleInfos : Area → Option (Response JsonBody)
  icon : String → Option (Response String)

/-- What a refresh leaves behind, the returned object holding JSON values. -/
structure JsonRefresh where
  jbossData : JsonBossData
  visited : List Int
  store : FileStore
  requests : List String

/-- The initial tuple `{area, {}, {}, {}, {}, {}}`. -/
def emptyJsonBoosData (a : Area) : JsonBoosData :=
  { itArea := a, itBossHP := [], itLapRange := [], itBossId := [], itBossName := [],
    itTimeRange := [] }

/-- Selection of the tuple of a region among the three of `vBossData`. -/
def jsonTupleOf (cn tw jp : JsonBoosData) : Area → JsonBoosData
  | .cn => cn
  | .tw => tw
  | .jp => jp

/-- The function `updateBossData()` on JSON values. An exception or undefined behaviour
in any region task leaves the whole call without a result. -/
def updateBossDataJson (parse : String → Int) (net : JsonNetwork) (store : FileStore) :
    Except Fault JsonRefresh :=
  match fetchBossDataJson parse (net.clanBattleInfos .cn) (emptyJsonBoosData .cn) [] with
  | .error f => .error f
  | .ok (cn, s1) =>
    match fetchBossDataJson parse (net.clanBattleInfos .tw) (emptyJsonBoosData .tw) s1 with
    | .error f => .error f
    | .ok (tw, s2) =>
      match fetchBossDataJson parse (net.clanBattleInfos .jp) (emptyJsonBoosData .jp) s2 with
      | .error f => .error f
      | .ok (jp, idSet) =>
        let icons := fetchBossIcon net.icon idSet (store, [])
        .ok { jbossData :=
                { boss_hp := fun a => (jsonTupleOf cn tw jp a).itBossHP
                  lap_range := fun a => (jsonTupleOf cn tw jp a).itLapRange
                  boss_id := fun a => (jsonTupleOf cn tw jp a).itBossId
                  boss_name := fun a => (jsonTupleOf cn tw jp a).itBossName
                  time_range := fun a => (jsonTupleOf cn tw jp a).itTimeRange }
              visited := idSet
              store := icons.1
              requests := icons.2 }

/-! ## The typed reading of JSON values -/

/-- Reading of every element of a list, failing when one element fails. -/
def readAll {α β : Type} (f : α → Option β) : List α → Option (List β)
  | [] => some []
  | x :: xs =>
    match f x, readAll f xs with
    | some y, some ys => some (y :: ys)
    | _, _ => none

/-- The typed reading of an entry of `bosses`: an object with an integer `unitId`, a
string `name` and an integer `hp`; other members are ignored. -/
def Boss.ofJson : Json → Option Boss
  | .object members =>
    match members.lookup "unitId", members.lookup "name", members.lookup "hp" with
    | some (.number unitId), some (.string name), some (.number hp) =>
      some { unitId := toInt64 unitId, name := name, hp := hp }
    | _, _, _ => none
  | _ => none

/-- The typed reading of an entry of `phases`: an object with an array `bosses` of
readable entries and integers `lapFrom` and `lapTo`. -/
def Phase.ofJson : Json → Option Phase
  | .object members =>
    match members.lookup "bosses", members.lookup "lapFrom", members.lookup "lapTo" with
    | some (.array bosses), some (.number lapFrom), some (.number lapTo) =>
      match readAll Boss.ofJson bosses with
      | some bs => some { bosses := bs, lapFrom := lapFrom, lapTo := lapTo }
      | none => none
    | _, _, _ => none
  | _ => none

/-- The typed reading of a clan battle record: an object with strings `startTime` and
`endTime`, whose `phases`, when an array, holds readable phases. -/
def ClanBattleInfo.ofJson : Json → Option ClanBattleInfo
  | .object members =>
    match members.lookup "startTime", members.lookup "endTime" with
    | some (.string startTime), some (.string endTime) =>
      match members.lookup "phases" with
      | some (.array phases) =>
        match readAll Phase.ofJson phases with
        | some ps => some { phases := some ps, startTime := startTime, endTime := endTime }
        | none => none
      | _ => some { phases := none, startTime := startTime, endTime := endTime }
    | _, _ => none
  | _ => none

/-- The JSON values of a typed tuple. -/
def BoosData.toJson (t : BoosData) : JsonBoosData :=
  { itArea := t.itArea
    itBossHP := t.itBossHP.map (fun l => l.map Json.number)
    itLapRange := t.itLapRange.map (fun r => (Json.number r.1, Json.number r.2))
    itBossId := t.itBossId
    itBossName := t.itBossName.map Json.string
    itTimeRange := t.itTimeRange }

/-- The JSON values of a typed dataset. -/
def BossData.toJson (d : BossData) : JsonBossData :=
  { boss_hp := fun a => (d.boss_hp a).map (fun l => l.map Json.number)
    lap_range := fun a => (d.lap_range a).map (fun r => (Json.number r.1, Json.number r.2))
    boss_id := d.boss_id
    boss_name := fun a => (d.boss_name a).map Json.string
    time_range := d.time_range }

/-- The typed reading `typed` of an answer `result`: the same status and, when the
status is 200, a body that is unparseable on both sides, or whose last element is read
as the last record. -/
def TypedView (result : Option (Response JsonBody)) (typed : Option (Response Body)) : Prop :=
  match result, typed with
  | none, none => True
  | some r, some t =>
    r.status = t.status ∧
      (r.status = OK_200 →
        match r.body, t.body with
        | .malformed, .malformed => True
        | .value j, .infos l =>
          ∃ lastInfo info, j.last = .ok lastInfo ∧ ClanBattleInfo.ofJson lastInfo = some info ∧
            l.getLast? = some info
        | _, _ => False)
  | _, _ => False

/-- The JSON values of the outcome of a typed refresh. -/
def Refresh.toJson (r : Refresh) : JsonRefresh :=
  { jbossData := r.jbossData.toJson, visited := r.visited, store := r.store,
    requests := r.requests }

/-! ## Single-precision values (`float`) -/

/-- A `float`: a finite value, an infinity or a NaN. Finite values are rationals and
every arithmetic result passes through the rounding of the `Rounding` in force.
Signed zeros and overflow to infinity are outside the model: the magnitudes computed
by the paint code are bounded by `460 * 2^64`. -/
inductive FloatV where
  | fin (q : ℚ)
  | pinf
  | ninf
  | nan
deriving DecidableEq

/-- A rounding of exact results to representable values: zero is representable and
a positive result stays positive (no underflow: the positive values that arise in the
paint code are quotients of integers below `2^64`, far above the smallest `float`). -/
structure Rounding where
  rnd : ℚ → ℚ
  rnd_zero : rnd 0 = 0
  rnd_pos : ∀ q, 0 < q → 0 < rnd q

/-- Exact arithmetic: every result is representable. -/
def Rounding.exact : Rounding :=
  { rnd := fun q => q, rnd_zero := rfl, rnd_pos := fun _ h => h }

/-- Conversion of a `std::uint64_t` (or of an `int`) to `float`. -/
def ofU64 (R : Rounding) (n : Nat) : FloatV := .fin (R.rnd n)

/-- The `float` product. -/
def fmul (R : Rounding) : FloatV → FloatV → FloatV
  | .nan, _ => .nan
  | _, .nan => .nan
  | .fin a, .fin b => .fin (R.rnd (a * b))
  | .fin a, .pinf => if a = 0 then .nan else if 0 < a then .pinf else .ninf
  | .fin a, .ninf => if a = 0 then .nan else if 0 < a then .ninf else .pinf
  | .pinf, .fin b => if b = 0 then .nan else if 0 < b then .pinf else .ninf
  | .ninf, .fin b => if b = 0 then .nan else if 0 < b then .ninf else .pinf
  | .pinf, .pinf => .pinf
  | .pinf, .ninf => .ninf
  | .ninf, .pinf => .ninf
  | .ninf, .ninf => .pinf

/-- The `float` quotient; a finite value divided by zero is an infinity, or a NaN
when the dividend is zero too. No division traps. -/
def fdiv (R : Rounding) : FloatV → FloatV → FloatV
  | .nan, _ => .nan
  | _, .nan => .nan
  | .fin a, .fin b =>
    if b = 0 then (if a = 0 then .nan else if 0 < a then .pinf else .ninf)
    else .fin (R.rnd (a / b))
  | .fin _, .pinf => .fin 0
  | .fin _, .ninf => .fin 0
  | .pinf, .fin b => if 0 ≤ b then .pinf else .ninf
  | .ninf, .fin b => if 0 ≤ b then .ninf else .pinf
  | .pinf, .pinf => .nan
  | .pinf, .ninf => .nan
  | .ninf, .pinf => .nan
  | .ninf, .ninf => .nan

/-- The `float` difference. -/
def fsub (R : Rounding) : FloatV → FloatV → FloatV
  | .nan, _ => .nan
  | _, .nan => .nan
  | .fin a, .fin b => .fin (R.rnd (a - b))
  | .fin _, .pinf => .ninf
  | .fin _, .ninf => .pinf
  | .pinf, .fin _ => .pinf
  | .ninf, .fin _ => .ninf
  | .pinf, .pinf => .nan
  | .pinf, .ninf => .pinf
  | .ninf, .pinf => .ninf
  | .ninf, .ninf => .nan

/-- The comparison `x < y` of two `float`s; false whenever a NaN is involved. -/
def flt : FloatV → FloatV → Bool
  | .fin a, .fin b => decide (a < b)
  | .fin _, .pinf => true
  | .ninf, .fin _ => true
  | .ninf, .pinf => true
  | _, _ => false

/-! ## Progress geometry (`yobot_paint.cpp`) -/

/-- The pair `Progress` of `std::uint64_t`: current value and total. -/
abbrev Progress := Nat × Nat

/-- The width `iconRect.w = (float)(m_texture0->w / 8 * 5)`, `texW` being the width
of the default icon texture. -/
def iconRectW (R : Rounding) (texW : Nat) : FloatV := ofU64 R (texW / 8 * 5)

/-- The width of the HP-bar column,
`HPRect.w = panelRect.w - iconRect.w - (float)(margin.x * 4)` with `panelRect.w = 460`
and `margin.x = 10`. -/
def HPRectW (R : Rounding) (texW : Nat) : FloatV :=
  fsub R (fsub R (.fin 460) (iconRectW R texW)) (.fin 40)

/-- The text `std::format("{}/{}", a, b)`. -/
def formatPair (a b : Nat) : String := toString a ++ "/" ++ toString b

/-- The function `getCountDownStr(t)`: `t` is taken as a count of seconds (a signed
64-bit value) and shown in the largest unit whose floored count is not zero. -/
def getCountDownStr (t : Nat) : String :=
  let sec : Int := (((t : Int) + 9223372036854775808) % 18446744073709551616) - 9223372036854775808
  if Int.fdiv sec 86400 ≠ 0 then toString (Int.fdiv sec 86400) ++ "天"
  else if Int.fdiv sec 3600 ≠ 0 then toString (Int.fdiv sec 3600) ++ "小时"
  else if Int.fdiv sec 60 ≠ 0 then toString (Int.fdiv sec 60) ++ "分钟"
  else toString sec ++ "秒"

/-- The width `rects[i].w = HPRect.w * (second - first) / second` of one bar of
`refreshTotalProgress`; the difference is taken in `std::uint64_t`. -/
def totalRectW (R : Rounding) (texW : Nat) (progress : Progress) : FloatV :=
  fdiv R (fmul R (HPRectW R texW) (ofU64 R (toUInt64 ((progress.2 : Int) - progress.1))))
    (ofU64 R progress.2)

/-- The label `lapRangeStr` of the lap bar. -/
def lapRangeStr (progress : Progress) : String :=
  if progress.1 = 0 then "∞" else formatPair progress.1 progress.2

/-- What `refreshTotalProgress` computes before drawing: the two labels and the widths
of the two bars (`progresses[0]` is the event progress, `progresses[1]` the lap
progress). Positions and the draw calls themselves are not part of the model. -/
structure TotalProgress where
  scheduleStr : String
  lapRangeStr : String
  rectW : Fin 2 → FloatV

/-- The function `paint::refreshTotalProgress(phase, progresses)`. -/
def refreshTotalProgress (R : Rounding) (texW : Nat) (progresses : Fin 2 → Progress) :
    TotalProgress :=
  { scheduleStr := "距离会战结束还剩" ++ getCountDownStr (progresses 0).1
    lapRangeStr := lapRangeStr (progresses 1)
    rectW := fun i => totalRectW R texW (progresses i) }

/-- The lap progress pair built by `PrepareRenderData`:
`{(lapMax == 999 ? 0 : lapMax - lap + 1), lapMax - lapMin + 1}`, stored as
`std::uint64_t`. -/
def lapProgress (lap lapMin lapMax : Int) : Progress :=
  (if lapMax = 999 then 0 else toUInt64 (lapMax - lap + 1), toUInt64 (lapMax - lapMin + 1))

/-- The filled width of one HP bar of `refreshBossProgress`:
`HPProgress.w = HPProgress.w / second * first`, raised to `1.0f` when it lies strictly
between 0 and 1. -/
def HPProgressW (R : Rounding) (texW : Nat) (progress : Progress) : FloatV :=
  let w := fmul R (fdiv R (HPRectW R texW) (ofU64 R progress.2)) (ofU64 R progress.1)
  if flt w (.fin 1) && flt (.fin 0) w then .fin 1 else w

/-- What `refreshBossProgress` computes for one slot. -/
structure SlotProgress where
  slot : Fin 5
  HPProgressW : FloatV
  HPStr : String
  lapColor : Nat
  lapStr : String
deriving DecidableEq

/-- The function `paint::refreshBossProgress(lap, lapFlags, progresses)`: the slots in
drawing order, slot 4 first. -/
def refreshBossProgress (R : Rounding) (texW : Nat) (lap : Nat) (lapFlags : Fin 5 → Bool)
    (progresses : Fin 5 → Progress) : List SlotProgress :=
  ([4, 3, 2, 1, 0] : List (Fin 5)).map fun i =>
    { slot := i
      HPProgressW := HPProgressW R texW (progresses i)
      HPStr := formatPair (progresses i).1 (progresses i).2
      lapColor := if lapFlags i then 1 else 0
      lapStr := "周目" ++ toString (toUInt64 ((lap : Int) + (if lapFlags i then 1 else 0))) }

/-! ## The paint event loop (`paint::mainLoop`, `paint::postDrawProcess`) -/

/-- The events `mainLoop` distinguishes. A `DRAW_PROCESS` event carries the closure
(`data1`), which may throw, and the promise of its submitter (`data2`). -/
inductive PaintEvent (σ ε : Type) where
  | DRAW_PROCESS (process : σ → Except ε σ) (promise : Nat)
  | MOUSE_BUTTON_UP
  | QUIT
  | other (type : Nat)

/-- The renderer operations the loop calls after a closure: `SaveSurface` reads the
surface back (resetting the viewport), `SDL_RenderPresent` presents it. -/
structure Renderer (σ Img : Type) where
  SaveSurface : σ → Img × σ
  RenderPresent : σ → σ

/-- The state the loop acts on: the renderer, the promises whose closure has been
invoked and the `set_value` calls made, both in order. -/
structure Paint (σ Img : Type) where
  renderer : σ
  invoked : List Nat
  fulfilled : List (Nat × Img)

/-- How `mainLoop` ends: it returns on `QUIT`, it leaves the loop when `SDL_WaitEvent`
fails, or an exception leaves it: one thrown by a closure, or the `std::future_error`
of `set_value` on a promise that already holds a value. -/
inductive LoopEnd (σ ε Img : Type) where
  | returned (p : Paint σ Img)
  | waitFailed (p : Paint σ Img)
  | thrown (e : ε) (invoked : List Nat) (fulfilled : List (Nat × Img))
  | promise_already_satisfied (invoked : List Nat) (fulfilled : List (Nat × Img))

/-- The `set_value` calls made by the time the loop ended. -/
def LoopEnd.fulfilled {σ ε Img : Type} : LoopEnd σ ε Img → List (Nat × Img)
  | .returned p => p.fulfilled
  | .waitFailed p => p.fulfilled
  | .thrown _ _ f => f
  | .promise_already_satisfied _ f => f

/-- The promises whose closure had been invoked by the time the loop ended. -/
def LoopEnd.invoked {σ ε Img : Type} : LoopEnd σ ε Img → List Nat
  | .returned p => p.invoked
  | .waitFailed p => p.invoked
  | .thrown _ i _ => i
  | .promise_already_satisfied i _ => i

/-- The function `paint::mainLoop()`; the list holds the events `SDL_WaitEvent`
delivers, in order, before it fails. -/
def mainLoop {σ ε Img : Type} (E : Renderer σ Img) :
    List (PaintEvent σ ε) → Paint σ Img → LoopEnd σ ε Img
  | [], p => .waitFailed p
  | .DRAW_PROCESS process promise :: events, p =>
    match process p.renderer with
    | .error e => .thrown e (p.invoked ++ [promise]) p.fulfilled
    | .ok r =>
      if promise ∈ p.fulfilled.map (fun f => f.1) then
        .promise_already_satisfied (p.invoked ++ [promise]) p.fulfilled
      else
        mainLoop E events
          { renderer := E.RenderPresent (E.SaveSurface r).2
            invoked := p.invoked ++ [promise]
            fulfilled := p.fulfilled ++ [(promise, (E.SaveSurface r).1)] }
  | .MOUSE_BUTTON_UP :: events, p => mainLoop E events p
  | .QUIT :: _, p => .returned p
  | .other _ :: events, p => mainLoop E events p

/-- The function `paint::postDrawProcess(process, promise)`; `pushed` is the result
of `SDL_PushEvent`, which the function returns. -/
def postDrawProcess {σ ε : Type} (pushed : Bool) (queue : List (PaintEvent σ ε))
    (process : σ → Except ε σ) (promise : Nat) : Bool × List (PaintEvent σ ε) :=
  if pushed then (true, queue ++ [.DRAW_PROCESS process promise]) else (false, queue)

/-- The value `future.get()` yields for a promise, `none` when no `set_value` is ever
made for it: the caller stays blocked. -/
def futureGet {Img : Type} (fulfilled : List (Nat × Img)) (promise : Nat) : Option Img :=
  (fulfilled.find? (fun f => f.1 == promise)).map (fun f => f.2)

/-- The tail shared by `Update` and `Progress` in `main.cpp`: the closure is posted, the
result of `postDrawProcess` is discarded, and the caller waits on the future. `queue`
holds the events pending before the post, `later` those delivered after it. -/
def postAndWait {σ ε Img : Type} (E : Renderer σ Img) (pushed : Bool)
    (queue later : List (PaintEvent σ ε)) (p : Paint σ Img)
    (drawProcess : σ → Except ε σ) (drawPromise : Nat) : Option Img :=
  futureGet (mainLoop E ((postDrawProcess pushed queue drawProcess drawPromise).2 ++ later) p).fulfilled
    drawPromise

/-- The function `Progress` of `main.cpp`, from the posting of the draw closure on. -/
def Progress_request {σ ε Img : Type} (E : Renderer σ Img) (savePNGBuffer : Img → String)
    (pushed : Bool) (queue later : List (PaintEvent σ ε)) (p : Paint σ Img)
    (drawProcess : σ → Except ε σ) (drawPromise : Nat) : Option String :=
  (postAndWait E pushed queue later p drawProcess drawPromise).map savePNGBuffer

/-- The function `Update` of `main.cpp`, from the posting of the draw closure on. -/
def Update_request {σ ε Img : Type} (E : Renderer σ Img)
    (pushed : Bool) (queue later : List (PaintEvent σ ε)) (p : Paint σ Img)
    (drawProcess : σ → Except ε σ) (drawPromise : Nat) : Option Unit :=
  (postAndWait E pushed queue later p drawProcess drawPromise).map (fun _ => ())

/-! ### Reference behaviour of the loop -/

/-- A renderer over a counter, for the instances: the snapshot is the counter. -/
def sampleRenderer : Renderer Nat Nat :=
  { SaveSurface := fun s => (s, s), RenderPresent := fun s => s }

/-- An initial loop state for the instances. -/
def samplePaint : Paint Nat Nat := { renderer := 0, invoked := [], fulfilled := [] }

/-- A closure that draws: it adds `k` to the counter. -/
def drawBy (k : Nat) : Nat → Except String Nat := fun s => .ok (s + k)

/-- A closure that throws. -/
def drawThrows : Nat → Except String Nat := fun _ => .error "out_of_range"

/-- An `SDL_Color`. -/
structure SDL_Color where
  r : Nat
  g : Nat
  b : Nat
  a : Nat
deriving DecidableEq, Repr

/-- The constant `halfTransparent`. -/
def halfTransparent : SDL_Color := ⟨0, 0, 0, 128⟩

/-- The table `phaseColor`, five entries. -/
def phaseColor : List SDL_Color :=
  [⟨132, 1, 244, 255⟩, ⟨115, 166, 231, 255⟩, ⟨206, 105, 165, 255⟩, ⟨206, 80, 66, 255⟩,
    ⟨181, 105, 206, 255⟩]

/-- The text `std::format("{:06}", n)`: the decimal numeral, padded with zeros on the
left to six characters. -/
def format06 (n : Nat) : String :=
  String.mk (List.replicate (6 - (toString n).length) '0') ++ toString n

/-- The path `std::format("icon/{:06}.webp", id)` from which `RenderPanelRow` loads the
icon of `id`. -/
def panelIconPath (id : Nat) : String := "icon/" ++ format06 id ++ ".webp"

/-- What the render target holds: the colour of the last clear, the icon files loaded
for the rows of a panel, a blit of the cached panel. Fills, lines and texts are not part
of the model. -/
inductive DrawOp where
  | clear (color : SDL_Color)
  | rows (paths : List String)
  | texture (panel : List String)
deriving DecidableEq, Repr

/-- The graphics state of `paint`: the cached panel `m_panel` (`nullptr` until a panel
has been prepared), named by the icon paths of its rows, and the render target. -/
structure PaintState where
  m_panel : Option (List String)
  target : List DrawOp
deriving DecidableEq, Repr

/-- The state the constructor `paint::paint()` leaves: no cached panel. -/
def paintInit : PaintState := { m_panel := none, target := [] }

/-- The function `paint::preparePanel(iconIds)`: the rows are rendered for the
identifiers in reverse order and the result is cached in `m_panel`. -/
def preparePanel (iconIds : Fin 5 → Nat) (_st : PaintState) : PaintState :=
  { m_panel := some (([4, 3, 2, 1, 0] : List (Fin 5)).map fun i => panelIconPath (iconIds i))
    target := [.clear halfTransparent,
      .rows (([4, 3, 2, 1, 0] : List (Fin 5)).map fun i => panelIconPath (iconIds i))] }

/-- Abnormal terminations of the request code: the exception `json::out_of_range`
thrown by `at`, and an access past the end of an array. -/
inductive RequestFault where
  | out_of_range
  | undefined_behaviour
deriving DecidableEq, Repr

/-- The function `paint::refreshBackground(phase)`: the target is cleared to
`phaseColor[phase - 'A']` and the cached panel is rendered over it. The function tests
neither the index nor `m_panel`; `SDL_RenderTexture` on a null texture draws nothing and
its result is not looked at. -/
def refreshBackground (phase : Int) (st : PaintState) : Except RequestFault PaintState :=
  if phase - 65 < 0 then .error .undefined_behaviour
  else
    match phaseColor[(phase - 65).toNat]? with
    | none => .error .undefined_behaviour
    | some color =>
      .ok { m_panel := st.m_panel
            target := .clear color ::
              (match st.m_panel with
               | some panel => [.texture panel]
               | none => []) }

/-! ## The request helpers of `main.cpp` -/

/-- The constant `DefaultArea`. -/
def DefaultArea : Area := .cn

/-- The `data` object of a `/progress` request: `lap`, `lap_flags`, `boss_hps`. -/
structure StatusData where
  lap : Int
  lap_flags : List Bool
  boss_hps : List Int
deriving DecidableEq, Repr

/-- The tuple returned by `PrepareRenderData`. -/
structure RenderData where
  lap : Int
  lapFlags : Fin 5 → Bool
  phase : Int
  totalProgesses : Fin 2 → Progress
  bossProgreses : Fin 5 → Progress

/-- The event progress pair built by `PrepareRenderData`:
`{(endTime > currentTime ? endTime - currentTime : 0), endTime - startTime}`, stored as
`std::uint64_t`; `currentTime` is `system_clock::now().time_since_epoch().count()`, a
count of ticks of the system clock. -/
def eventProgress (currentTime startTime endTime : Int) : Progress :=
  (toUInt64 (if endTime > currentTime then endTime - currentTime else 0),
    toUInt64 (endTime - startTime))

/-- The function `PrepareRenderData(statusData, bossData)`; `currentTime` is the value
read from the system clock. -/
def PrepareRenderData (statusData : StatusData) (bossData : BossData) (currentTime : Int) :
    Except RequestFault RenderData :=
  let lap := statusData.lap
  let phase := getPhase bossData lap DefaultArea
  if phase < 0 then .error .undefined_behaviour
  else
    match (bossData.lap_range DefaultArea)[phase.toNat]? with
    | none => .error .undefined_behaviour
    | some lapRange =>
      if statusData.lap_flags.length < 5 then .error .out_of_range
      else
        match (bossData.boss_hp DefaultArea)[phase.toNat]? with
        | none => .error .undefined_behaviour
        | some bossFullHPs =>
          if statusData.boss_hps.length < 5 ∧ statusData.boss_hps.length ≤ bossFullHPs.length
          then .error .out_of_range
          else if bossFullHPs.length < 5 then .error .undefined_behaviour
          else
            match bossData.time_range DefaultArea with
            | startTime :: endTime :: _ =>
              .ok { lap := lap
                    lapFlags := fun i => statusData.lap_flags.getD i false
                    phase := toInt8 (phase + 65)
                    totalProgesses :=
                      ![eventProgress currentTime startTime endTime,
                        lapProgress lap lapRange.1 lapRange.2]
                    bossProgreses := fun i =>
                      (toUInt64 (statusData.boss_hps.getD i 0), toUInt64 (bossFullHPs.getD i 0)) }
            | _ => .error .undefined_behaviour

/-- The draw closure of `Update`: `preparePanel(bossData["boss_id"][DefaultArea])`; the
conversion of the JSON array to `std::array<std::uint64_t, 5>` throws when it has fewer
than five entries. -/
def Update_drawProcess (bossData : BossData) (st : PaintState) :
    Except RequestFault PaintState :=
  if (bossData.boss_id DefaultArea).length < 5 then .error .out_of_range
  else .ok (preparePanel (fun i => toUInt64 ((bossData.boss_id DefaultArea).getD i 0)) st)

/-! ## Predicates and fixtures used by the statements -/

/-- The index `i` is the first one of `l` whose range contains `lap`. -/
def FirstContaining (l : List LapRange) (lap : Int) (i : Nat) : Prop :=
  (∃ r, l[i]? = some r ∧ r.1 ≤ lap ∧ lap ≤ r.2) ∧
    ∀ j r, j < i → l[j]? = some r → ¬ (r.1 ≤ lap ∧ lap ≤ r.2)

/-- A dataset carrying the lap ranges `l` for every region and nothing else. -/
def lapRangeData (l : List LapRange) : BossData :=
  { boss_hp := fun _ => [], lap_range := fun _ => l, boss_id := fun _ => [],
    boss_name := fun _ => [], time_range := fun _ => [] }

/-- Reading a decimal numeral back, continuing from the value `a`. -/
def readDecimal (cs : List Char) (a : Nat) : Nat :=
  cs.foldl (fun a c => 10 * a + (c.toNat - 48)) a

/-- The metadata fetch of a region failed: no response, or a status other than 200. -/
def FetchFailed {β : Type} (result : Option (Response β)) : Prop :=
  ∀ r, result = some r → r.status ≠ OK_200

/-- A response with status 200 can be read: its body parses to a non-empty list whose
last record has a `phases` member that is not an empty array. -/
def Readable (result : Option (Response Body)) : Prop :=
  ∀ r, result = some r → r.status = OK_200 →
    ∃ l lastInfo, r.body = .infos l ∧ l.getLast? = some lastInfo ∧ lastInfo.phases ≠ some []

/-- A response with status 200 can be read: its body parses to a value whose last
element reads as a record, and the `phases` of the record is not an empty array. -/
def ReadableJson (result : Option (Response JsonBody)) : Prop :=
  ∀ r, result = some r → r.status = OK_200 →
    ∃ j lastInfo info, r.body = .value j ∧ j.last = .ok lastInfo ∧
      ClanBattleInfo.ofJson lastInfo = some info ∧ info.phases ≠ some []

/-- The five members of the returned JSON are empty for region `a`. -/
def RegionEmpty (d : BossData) (a : Area) : Prop :=
  d.boss_id a = [] ∧ d.boss_name a = [] ∧ d.boss_hp a = [] ∧ d.lap_range a = [] ∧
    d.time_range a = []

/-- The five members of the returned JSON for region `a` are those read from the
record `lastInfo` with phases `first :: rest`. -/
def RegionPopulated (toSeconds : String → Int) (d : BossData) (a : Area)
    (lastInfo : ClanBattleInfo) (first : Phase) (rest : List Phase) : Prop :=
  d.boss_id a = first.bosses.map (fun b => b.unitId) ∧
  d.boss_name a = first.bosses.map (fun b => b.name) ∧
  d.boss_hp a = (first :: rest).map (fun p => p.bosses.map (fun b => b.hp)) ∧
  d.lap_range a = setLastLapTo ((first :: rest).map (fun p => (p.lapFrom, p.lapTo))) ∧
  d.time_range a = [toSeconds lastInfo.startTime, toSeconds lastInfo.endTime]

/-- A stand-in for `toSeconds` in the fixtures. -/
def sampleSeconds (t : String) : Int := t.length

/-- A roster with the given identifiers. -/
def sampleRoster (ids : List Int) : List Boss := ids.map (fun i => ⟨i, "boss", 6000000⟩)

/-- A record with two phases, lap ranges `[0, 10]` and `[11, 20]`. -/
def sampleInfo (ids : List Int) : ClanBattleInfo :=
  { phases := some [⟨sampleRoster ids, 0, 10⟩, ⟨sampleRoster ids, 11, 20⟩]
    startTime := "2024-01-25T05:00:00+08:00"
    endTime := "2024-01-30T00:00:00+08:00" }

/-- A network in which `cn` and `tw` answer (both rosters list 1000) and `jp` does not. -/
def sampleNetwork (icon : String → Option (Response String)) : Network :=
  { clanBattleInfos := fun a =>
      match a with
      | .cn => some ⟨200, .infos [sampleInfo [1000, 1001, 1002, 1003, 1004]]⟩
      | .tw => some ⟨200, .infos [sampleInfo [1000, 2001, 2002, 2003, 2004]]⟩
      | .jp => none
    icon := icon }

/-- An entry of `bosses` as the service sends it. -/
def sampleJsonBoss (id : Int) : Json :=
  .object [("hp", .number 6000000), ("name", .string "boss"), ("unitId", .number id)]

/-- A record as the service sends it, with two phases, lap ranges `[0, 10]` and
`[11, 20]`, and members the code does not read. -/
def sampleJsonInfo (ids : List Int) : Json :=
  .object
    [("endTime", .string "2024-01-30T00:00:00+08:00"),
     ("id", .number 1070),
     ("phases", .array
        [.object [("bosses", .array (ids.map sampleJsonBoss)), ("lapFrom", .number 0),
                  ("lapTo", .number 10), ("phase", .number 1)],
         .object [("bosses", .array (ids.map sampleJsonBoss)), ("lapFrom", .number 11),
                  ("lapTo", .number 20), ("phase", .number 2)]]),
     ("startTime", .string "2024-01-25T05:00:00+08:00")]

/-- The sample network with JSON bodies: `cn` and `tw` answer with an array of two
records (both last rosters list 1000) and `jp` does not answer. -/
def sampleJsonNetwork (icon : String → Option (Response String)) : JsonNetwork :=
  { clanBattleInfos := fun a =>
      match a with
      | .cn => some ⟨200, .value (.array [sampleJsonInfo [1],
          sampleJsonInfo [1000, 1001, 1002, 1003, 1004]])⟩
      | .tw => some ⟨200, .value (.array [sampleJsonInfo [1],
          sampleJsonInfo [1000, 2001, 2002, 2003, 2004]])⟩
      | .jp => none
    icon := icon }

/-- A network whose `cn` answer has status 200 and a body that is not JSON. -/
def malformedJsonNetwork : JsonNetwork :=
  { clanBattleInfos := fun a =>
      match a with
      | .cn => some ⟨200, .malformed⟩
      | .tw => none
      | .jp => none
    icon := fun _ => none }

/-- A network whose `cn` answer has status 200 and the body
`[{"phases":[{"bosses":[{}]}]}]`: JSON, with a boss entry that has no `unitId`. -/
def untypedJsonNetwork : JsonNetwork :=
  { clanBattleInfos := fun a =>
      match a with
      | .cn => some ⟨200, .value (.array
          [.object [("phases", .array [.object [("bosses", .array [.object []])]])]])⟩
      | .tw => none
      | .jp => none
    icon := fun _ => none }

/-- An empty asset store. -/
def noFile : FileStore := fun _ => none

/-- An icon service that never answers. -/
def noIcon : String → Option (Response String) := fun _ => none

/-- An icon service that answers every request with status 200. -/
def everyIcon : String → Option (Response String) := fun _ => some ⟨200, "RIFF"⟩

/-- The `data` object built from a lap, five lap flags and five boss HP values. -/
def statusOf (lap : Int) (flags : Fin 5 → Bool) (hps : Fin 5 → Int) : StatusData :=
  { lap := lap, lap_flags := List.ofFn flags, boss_hps := List.ofFn hps }

/-- A dataset whose regions carry the given lap ranges, a row of five full HP values
for each of them, a roster of five six-digit identifiers and the event window
`[1706130000, 1706162400]` in epoch seconds. -/
def sampleData (ranges : List LapRange) : BossData :=
  { boss_hp := fun _ => ranges.map fun _ => [6000000, 8000000, 10000000, 12000000, 15000000]
    lap_range := fun _ => ranges
    boss_id := fun _ => [302000, 302100, 302200, 302300, 302400]
    boss_name := fun _ => ["a", "b", "c", "d", "e"]
    time_range := fun _ => [1706130000, 1706162400] }

/-- Five HP values for the instances. -/
def sampleHPs : Fin 5 → Int := ![6000000, 0, 123456, 12000000, 1]

/-- Five lap flags for the instances. -/
def sampleFlags : Fin 5 → Bool := ![false, true, false, false, true]

/-- Whole seconds left from the instant `currentTime`, counted in ticks of which
`ticksPerSecond` make a second, to `endTime` in epoch seconds; zero once `endTime` has
passed. -/
def secondsRemaining (ticksPerSecond : Nat) (currentTime endTime : Int) : Int :=
  max 0 (endTime - currentTime / ticksPerSecond)

/-! # Theorems -/

/-! ## Decimal rendering of identifiers -/

theorem digitChar_val (k : Nat) (hk : k < 10) : (Nat.digitChar k).toNat - 48 = k := by
  interval_cases k <;> rfl

theorem readDecimal_toDigitsCore (fuel : Nat) :
    ∀ (n : Nat) (ds : List Char), n < fuel →
      readDecimal (Nat.toDigitsCore 10 fuel n ds) 0 = readDecimal ds n := by
  induction fuel with
  | zero => intro n ds h; omega
  | succ f ih =>
    intro n ds h
    unfold Nat.toDigitsCore
    have hv := digitChar_val (n % 10) (Nat.mod_lt _ (by decide))
    by_cases h0 : n / 10 = 0
    · simp only [h0, if_true]
      simp only [readDecimal, List.foldl_cons, hv]
      congr 1
      omega
    · simp only [h0, if_false]
      rw [ih (n / 10) _ (by omega)]
      simp only [readDecimal, List.foldl_cons, hv]
      congr 1
      omega

theorem toInt8_add_toInt8 (a b : Int) : toInt8 (toInt8 a + b) = toInt8 (a + b) := by
  unfold toInt8; omega

theorem toInt8_of_range (a : Int) (h1 : -128 ≤ a) (h2 : a ≤ 127) : toInt8 a = a := by
  unfold toInt8; omega

theorem getPhaseLoop_first (lap : Int) (l : List LapRange) :
    ∀ (ret : Int) (i : Nat), FirstContaining l lap i →
      toInt8 (getPhaseLoop lap l ret) = toInt8 (ret + i) := by
  induction l with
  | nil =>
    intro ret i h
    obtain ⟨⟨r, hr, _⟩, _⟩ := h
    simp at hr
  | cons r rest ih =>
    intro ret i h
    obtain ⟨⟨r0, hr0, hin⟩, hfirst⟩ := h
    by_cases hc : r.1 ≤ lap ∧ lap ≤ r.2
    · have hi : i = 0 := by
        by_contra hne
        exact hfirst 0 r (Nat.pos_of_ne_zero hne) (by simp) hc
      subst hi
      simp [getPhaseLoop, hc]
    · cases i with
      | zero =>
        simp at hr0
        subst hr0
        exact absurd hin hc
      | succ k =>
        have hk : FirstContaining rest lap k := by
          refine ⟨⟨r0, by simpa using hr0, hin⟩, ?_⟩
          intro j r1 hj hr1
          exact hfirst (j + 1) r1 (by omega) (by simpa using hr1)
        have := ih (toInt8 (ret + 1)) k hk
        simp only [getPhaseLoop, hc, if_false]
        rw [this, toInt8_add_toInt8]
        congr 1
        push_cast
        ring

theorem getPhaseLoop_none (lap : Int) (l : List LapRange) :
    ∀ (ret : Int), (∀ r ∈ l, ¬ (r.1 ≤ lap ∧ lap ≤ r.2)) →
      toInt8 (getPhaseLoop lap l ret) = toInt8 (ret + l.length) := by
  induction l with
  | nil => intro ret _; simp [getPhaseLoop]
  | cons r rest ih =>
    intro ret h
    have hc : ¬ (r.1 ≤ lap ∧ lap ≤ r.2) := h r (by simp)
    have := ih (toInt8 (ret + 1)) (fun r1 h1 => h r1 (by simp [h1]))
    simp only [getPhaseLoop, hc, if_false]
    rw [this, toInt8_add_toInt8]
    congr 1
    simp only [List.length_cons]
    push_cast
    ring

/-- C1 (amended): when some range of the region contains `lap` and the first such
range has index `i`, `getPhase` returns `i` reduced to the signed 8-bit range, which is
`i` itself whenever `i ≤ 127`. -/
theorem getPhase_first_containing (bossData : BossData) (gameServer : Area) (lap : Int)
    (i : Nat) (hfirst : FirstContaining (bossData.lap_range gameServer) lap i) :
    getPhase bossData lap gameServer = toInt8 i ∧
      (i ≤ 127 → getPhase bossData lap gameServer = i) := by
  have h : getPhase bossData lap gameServer = toInt8 i := by
    unfold getPhase
    rw [getPhaseLoop_first lap _ 0 i hfirst, zero_add]
  refine ⟨h, fun hi => ?_⟩
  rw [h]
  apply toInt8_of_range <;> omega

set_option maxRecDepth 100000

/-- C1, instance: with ranges `[(0,10),(11,999)]` and lap 11 the first containing index is 1. -/
theorem getPhase_first_containing_witness :
    FirstContaining ((lapRangeData [(0, 10), (11, 999)]).lap_range .cn) 11 1 ∧
      getPhase (lapRangeData [(0, 10), (11, 999)]) 11 .cn = (1 : Nat) :=
  have h : FirstContaining ((lapRangeData [(0, 10), (11, 999)]).lap_range .cn) 11 1 := by
    refine ⟨⟨(11, 999), by decide, by decide, by decide⟩, ?_⟩
    intro j r hj hr
    have hj0 : j = 0 := by omega
    subst hj0
    simp [lapRangeData] at hr
    subst hr
    decide
  ⟨h, (getPhase_first_containing _ _ _ _ h).2 (by decide)⟩

/-- C1, counterexample: with 129 ranges of which only the last contains the lap, the first
containing index is 128 and `getPhase` returns -128, the 8-bit wrap of the counter. -/
theorem getPhase_index_128_wraps :
    FirstContaining ((lapRangeData (List.replicate 128 (0, 0) ++ [(1, 1)])).lap_range .cn) 1 128 ∧
      getPhase (lapRangeData (List.replicate 128 (0, 0) ++ [(1, 1)])) 1 .cn = -128 := by
  refine ⟨⟨⟨(1, 1), by decide, by decide, by decide⟩, ?_⟩, by decide⟩
  intro j r hj hr
  simp only [lapRangeData] at hr
  rw [List.getElem?_append_left (by simpa using hj)] at hr
  rw [List.getElem?_replicate] at hr
  simp [hj] at hr
  subst hr
  decide

/-! ## Aggregation: regions -/

theorem fetchBossData_readable (toSeconds : String → Int) (result : Option (Response Body))
    (a : Area) (s : List Int) (h : Readable result) :
    ∃ t s', fetchBossData toSeconds result (emptyBoosData a) s = .ok (t, s') ∧
      (FetchFailed result → t = emptyBoosData a) ∧
      (∀ r l lastInfo, result = some r → r.status = OK_200 → r.body = .infos l →
        l.getLast? = some lastInfo →
          (lastInfo.phases = none → t = emptyBoosData a) ∧
          (∀ first rest, lastInfo.phases = some (first :: rest) →
            t = { itArea := a
                  itBossHP := (first :: rest).map (fun p => p.bosses.map (fun b => b.hp))
                  itLapRange := setLastLapTo ((first :: rest).map (fun p => (p.lapFrom, p.lapTo)))
                  itBossId := first.bosses.map (fun b => b.unitId)
                  itBossName := first.bosses.map (fun b => b.name)
                  itTimeRange := [toSeconds lastInfo.startTime, toSeconds lastInfo.endTime] })) := by
  cases result with
  | none =>
    refine ⟨emptyBoosData a, s, rfl, fun _ => rfl, ?_⟩
    intro r l lastInfo hr
    cases hr
  | some r =>
    by_cases hs : r.status = OK_200
    · obtain ⟨l, lastInfo, hb, hl, hp⟩ := h r rfl hs
      cases hph : lastInfo.phases with
      | none =>
        refine ⟨emptyBoosData a, s, by simp [fetchBossData, hs, hb, hl, hph], fun _ => rfl, ?_⟩
        intro r1 l1 li1 hr1 _ hb1 hl1
        cases hr1
        rw [hb] at hb1
        cases hb1
        rw [hl] at hl1
        cases hl1
        exact ⟨fun _ => rfl, fun first rest hfr => (by rw [hph] at hfr; cases hfr)⟩
      | some ps =>
        cases ps with
        | nil => exact absurd hph hp
        | cons first rest =>
          refine ⟨{ itArea := a
                    itBossHP := (first :: rest).map (fun p => p.bosses.map (fun b => b.hp))
                    itLapRange := setLastLapTo ((first :: rest).map (fun p => (p.lapFrom, p.lapTo)))
                    itBossId := first.bosses.map (fun b => b.unitId)
                    itBossName := first.bosses.map (fun b => b.name)
                    itTimeRange := [toSeconds lastInfo.startTime, toSeconds lastInfo.endTime] },
                  first.bosses.foldl (fun s b => insertId s b.unitId) s,
                  by simp [fetchBossData, hs, hb, hl, hph, emptyBoosData], ?_, ?_⟩
          · intro hf
            exact absurd hs (hf r rfl)
          · intro r1 l1 li1 hr1 _ hb1 hl1
            cases hr1
            rw [hb] at hb1
            cases hb1
            rw [hl] at hl1
            cases hl1
            refine ⟨fun hn => (by rw [hph] at hn; cases hn), ?_⟩
            intro f1 r1 hfr
            rw [hph] at hfr
            cases hfr
            rfl
    · refine ⟨emptyBoosData a, s, by simp [fetchBossData, hs], fun _ => rfl, ?_⟩
      intro r1 l1 li1 hr1 hs1
      cases hr1
      exact absurd hs1 hs

/-! ### The JSON functions on bodies with a typed reading -/

theorem readAll_cons {α β : Type} (f : α → Option β) (x : α) (xs : List α) (l : List β)
    (h : readAll f (x :: xs) = some l) :
    ∃ y ys, f x = some y ∧ readAll f xs = some ys ∧ l = y :: ys := by
  simp only [readAll] at h
  cases hx : f x with
  | none => rw [hx] at h; cases h
  | some y =>
    cases hxs : readAll f xs with
    | none => rw [hx, hxs] at h; cases h
    | some ys =>
      rw [hx, hxs] at h
      injection h with h
      exact ⟨y, ys, rfl, rfl, h.symm⟩

theorem bossOfJson_index (j : Json) (b : Boss) (h : Boss.ofJson j = some b) :
    (∃ n, j.index "unitId" = .ok (.number n) ∧ toInt64 n = b.unitId) ∧
      j.index "name" = .ok (.string b.name) ∧ j.index "hp" = .ok (.number b.hp) := by
  cases j with
  | object members =>
    simp only [Boss.ofJson] at h
    split at h
    · rename_i unitId name hp h1 h2 h3
      injection h with h
      subst h
      refine ⟨⟨unitId, ?_, rfl⟩, ?_, ?_⟩ <;>
        simp only [Json.index, h1, h2, h3, Option.getD_some]
    · cases h
  | _ => simp [Boss.ofJson] at h

theorem rosterLoop_read (bosses : List Json) :
    ∀ (bs : List Boss), readAll Boss.ofJson bosses = some bs →
      ∀ (ids : List Int) (names : List Json) (s : List Int),
        rosterLoop bosses (ids, names, s) =
          .ok (ids ++ bs.map (fun b => b.unitId), names ++ bs.map (fun b => Json.string b.name),
            bs.foldl (fun s b => insertId s b.unitId) s) := by
  induction bosses with
  | nil =>
    intro bs h ids names s
    simp only [readAll] at h
    injection h with h
    subst h
    simp [rosterLoop]
  | cons boss rest ih =>
    intro bs h ids names s
    obtain ⟨b, bs1, hb, hrest, rfl⟩ := readAll_cons _ _ _ _ h
    obtain ⟨⟨n, hn, hid⟩, hname, _⟩ := bossOfJson_index boss b hb
    simp only [rosterLoop, hn, hname, Json.get_number_integer, hid]
    rw [ih bs1 hrest]
    simp

theorem hpLoop_read (bosses : List Json) :
    ∀ (bs : List Boss), readAll Boss.ofJson bosses = some bs →
      ∀ (bossHP : List Json),
        hpLoop bosses bossHP = .ok (bossHP ++ bs.map (fun b => Json.number b.hp)) := by
  induction bosses with
  | nil =>
    intro bs h bossHP
    simp only [readAll] at h
    injection h with h
    subst h
    simp [hpLoop]
  | cons boss rest ih =>
    intro bs h bossHP
    obtain ⟨b, bs1, hb, hrest, rfl⟩ := readAll_cons _ _ _ _ h
    obtain ⟨_, _, hhp⟩ := bossOfJson_index boss b hb
    simp only [hpLoop, hhp]
    rw [ih bs1 hrest]
    simp

theorem phaseOfJson_index (j : Json) (p : Phase) (h : Phase.ofJson j = some p) :
    (∃ bosses, j.index "bosses" = .ok (.array bosses) ∧
        readAll Boss.ofJson bosses = some p.bosses) ∧
      j.index "lapFrom" = .ok (.number p.lapFrom) ∧
      j.index "lapTo" = .ok (.number p.lapTo) := by
  cases j with
  | object members =>
    simp only [Phase.ofJson] at h
    split at h
    · rename_i bosses lapFrom lapTo h1 h2 h3
      cases hr : readAll Boss.ofJson bosses with
      | none => rw [hr] at h; cases h
      | some bs =>
        rw [hr] at h
        injection h with h
        subst h
        refine ⟨⟨bosses, ?_, hr⟩, ?_, ?_⟩ <;>
          simp only [Json.index, h1, h2, h3, Option.getD_some]
    · cases h
  | _ => simp [Phase.ofJson] at h

theorem phaseLoop_read (phases : List Json) :
    ∀ (ps : List Phase), readAll Phase.ofJson phases = some ps →
      ∀ (hps : List (List Json)) (ranges : List (Json × Json)),
        phaseLoop phases (hps, ranges) =
          .ok (hps ++ ps.map (fun p => p.bosses.map (fun b => Json.number b.hp)),
            ranges ++ ps.map (fun p => (Json.number p.lapFrom, Json.number p.lapTo))) := by
  induction phases with
  | nil =>
    intro ps h hps ranges
    simp only [readAll] at h
    injection h with h
    subst h
    simp [phaseLoop]
  | cons ait rest ih =>
    intro ps h hps ranges
    obtain ⟨p, ps1, hp, hrest, rfl⟩ := readAll_cons _ _ _ _ h
    obtain ⟨⟨bosses, hb, hbs⟩, hfrom, hto⟩ := phaseOfJson_index ait p hp
    simp only [phaseLoop, hb, hfrom, hto, Json.items, hpLoop_read bosses p.bosses hbs,
      List.nil_append]
    rw [ih ps1 hrest]
    simp

theorem assignLastLapTo_map (l : List LapRange) :
    assignLastLapTo (l.map (fun r => (Json.number r.1, Json.number r.2))) =
      (setLastLapTo l).map (fun r => (Json.number r.1, Json.number r.2)) := by
  induction l with
  | nil => rfl
  | cons r rs ih =>
    cases rs with
    | nil => rfl
    | cons r2 rs =>
      simp only [List.map_cons, assignLastLapTo, setLastLapTo] at ih ⊢
      rw [ih]

theorem infoOfJson_index (j : Json) (info : ClanBattleInfo)
    (h : ClanBattleInfo.ofJson j = some info) :
    j.index "startTime" = .ok (.string info.startTime) ∧
      j.index "endTime" = .ok (.string info.endTime) ∧
      ∃ phases, j.index "phases" = .ok phases ∧
        ((∀ ps, info.phases = some ps →
            ∃ elements, phases = .array elements ∧ readAll Phase.ofJson elements = some ps) ∧
          (info.phases = none → ∀ elements, phases ≠ .array elements)) := by
  cases j with
  | object members =>
    simp only [ClanBattleInfo.ofJson] at h
    split at h
    · rename_i startTime endTime h1 h2
      split at h
      · rename_i phases h3
        cases hr : readAll Phase.ofJson phases with
        | none => rw [hr] at h; cases h
        | some ps =>
          rw [hr] at h
          injection h with h
          subst h
          refine ⟨?_, ?_, .array phases, ?_, ?_, ?_⟩
          · simp only [Json.index, h1, Option.getD_some]
          · simp only [Json.index, h2, Option.getD_some]
          · simp only [Json.index, h3, Option.getD_some]
          · intro ps1 hps1
            injection hps1 with hps1
            subst hps1
            exact ⟨phases, rfl, hr⟩
          · intro hn
            cases hn
      · rename_i hne
        injection h with h
        subst h
        refine ⟨?_, ?_, (members.lookup "phases").getD .null, ?_, ?_, ?_⟩
        · simp only [Json.index, h1, Option.getD_some]
        · simp only [Json.index, h2, Option.getD_some]
        · simp only [Json.index]
        · intro ps hps
          cases hps
        · intro _ elements hel
          cases hl : members.lookup "phases" with
          | none => rw [hl] at hel; cases hel
          | some v =>
            rw [hl] at hel
            simp only [Option.getD_some] at hel
            exact hne elements (by rw [hl, hel])
    · cases h
  | _ => simp [ClanBattleInfo.ofJson] at h

theorem fetchBossDataJson_typed (parse : String → Int) (result : Option (Response JsonBody))
    (typed : Option (Response Body)) (h : TypedView result typed) (bossData : BoosData)
    (idSet : List Int) :
    fetchBossDataJson parse result bossData.toJson idSet =
      match fetchBossData parse typed bossData idSet with
      | .ok (t, s) => .ok (t.toJson, s)
      | .error f => .error f := by
  cases result with
  | none =>
    cases typed with
    | none => rfl
    | some t => exact absurd h (by simp [TypedView])
  | some r =>
    cases typed with
    | none => exact absurd h (by simp [TypedView])
    | some t =>
      obtain ⟨hst, hbody⟩ := h
      by_cases hs : r.status = OK_200
      · have hs2 : t.status = OK_200 := by rw [← hst]; exact hs
        replace hbody := hbody hs
        cases hrb : r.body with
        | malformed =>
          cases htb : t.body with
          | malformed => simp only [fetchBossDataJson, fetchBossData, hs, hs2, hrb, htb, if_true]
          | infos l => rw [hrb, htb] at hbody; exact absurd hbody (by simp)
        | value j =>
          cases htb : t.body with
          | malformed => rw [hrb, htb] at hbody; exact absurd hbody (by simp)
          | infos l =>
            rw [hrb, htb] at hbody
            obtain ⟨lastInfo, info, hlast, hinfo, hl⟩ := hbody
            obtain ⟨hstart, hend, phases, hphases, hsome, hnone⟩ :=
              infoOfJson_index lastInfo info hinfo
            simp only [fetchBossDataJson, fetchBossData, hs, hs2, hrb, htb, if_true, hlast, hl,
              hphases]
            cases hp : info.phases with
            | none =>
              have hna := hnone hp
              cases phases with
              | array elements => exact absurd rfl (hna elements)
              | _ => rfl
            | some ps =>
              obtain ⟨elements, rfl, hread⟩ := hsome ps hp
              cases elements with
              | nil =>
                simp only [readAll] at hread
                injection hread with hread
                subst hread
                rfl
              | cons ait more =>
                obtain ⟨first, rest, hfirst, hrest, rfl⟩ := readAll_cons _ _ _ _ hread
                obtain ⟨⟨bosses, hb, hbs⟩, _, _⟩ := phaseOfJson_index ait first hfirst
                simp only [hb, Json.items, BoosData.toJson,
                  rosterLoop_read bosses first.bosses hbs,
                  phaseLoop_read (ait :: more) (first :: rest) hread, hstart, hend, toSeconds]
                simp only [← assignLastLapTo_map, List.map_append, List.map_map,
                  Function.comp_def]
      · have hs2 : ¬ t.status = OK_200 := by rw [← hst]; exact hs
        simp only [fetchBossDataJson, fetchBossData, hs, hs2, if_false]

theorem updateBossDataJson_typed (parse : String → Int) (net : JsonNetwork) (typed : Network)
    (h : ∀ a, TypedView (net.clanBattleInfos a) (typed.clanBattleInfos a))
    (hicon : net.icon = typed.icon) (store : FileStore) :
    updateBossDataJson parse net store =
      match updateBossData parse typed store with
      | .ok r => .ok r.toJson
      | .error f => .error f := by
  have e : ∀ a, emptyJsonBoosData a = (emptyBoosData a).toJson := fun _ => rfl
  simp only [updateBossDataJson, updateBossData, e]
  rw [fetchBossDataJson_typed parse _ _ (h .cn)]
  cases fetchBossData parse (typed.clanBattleInfos .cn) (emptyBoosData .cn) [] with
  | error f => rfl
  | ok p1 =>
    obtain ⟨cn, s1⟩ := p1
    simp only
    rw [fetchBossDataJson_typed parse _ _ (h .tw)]
    cases fetchBossData parse (typed.clanBattleInfos .tw) (emptyBoosData .tw) s1 with
    | error f => rfl
    | ok p2 =>
      obtain ⟨tw, s2⟩ := p2
      simp only
      rw [fetchBossDataJson_typed parse _ _ (h .jp)]
      cases fetchBossData parse (typed.clanBattleInfos .jp) (emptyBoosData .jp) s2 with
      | error f => rfl
      | ok p3 =>
        obtain ⟨jp, s3⟩ := p3
        have e2 : ∀ a, jsonTupleOf cn.toJson tw.toJson jp.toJson a =
            (tupleOf cn tw jp a).toJson := by
          intro a
          cases a <;> rfl
        simp only [Refresh.toJson, BossData.toJson, hicon, e2]
        rfl

theorem fetchBossDataJson_readable (parse : String → Int)
    (result : Option (Response JsonBody)) (a : Area) (s : List Int)
    (h : ReadableJson result) :
    ∃ (t : BoosData) (s1 : List Int),
      fetchBossDataJson parse result (emptyJsonBoosData a) s = .ok (t.toJson, s1) ∧
      (FetchFailed result → t = emptyBoosData a) ∧
      (∀ r j lastInfo info, result = some r → r.status = OK_200 → r.body = .value j →
        j.last = .ok lastInfo → ClanBattleInfo.ofJson lastInfo = some info →
          (info.phases = none → t = emptyBoosData a) ∧
          (∀ first rest, info.phases = some (first :: rest) →
            t = { itArea := a
                  itBossHP := (first :: rest).map (fun p => p.bosses.map (fun b => b.hp))
                  itLapRange := setLastLapTo ((first :: rest).map (fun p => (p.lapFrom, p.lapTo)))
                  itBossId := first.bosses.map (fun b => b.unitId)
                  itBossName := first.bosses.map (fun b => b.name)
                  itTimeRange := [parse info.startTime, parse info.endTime] })) := by
  have e : emptyJsonBoosData a = (emptyBoosData a).toJson := rfl
  cases result with
  | none =>
    refine ⟨emptyBoosData a, s, rfl, fun _ => rfl, ?_⟩
    intro r j lastInfo info hr
    cases hr
  | some r =>
    by_cases hs : r.status = OK_200
    · obtain ⟨j, lastInfo, info, hb, hlast, hinfo, hne⟩ := h r rfl hs
      have hview : TypedView (some r) (some ⟨r.status, .infos [info]⟩) := by
        refine ⟨rfl, fun _ => ?_⟩
        rw [hb]
        exact ⟨lastInfo, info, hlast, hinfo, rfl⟩
      have hread : Readable (some ⟨r.status, Body.infos [info]⟩) := by
        intro r1 hr1 _
        cases hr1
        exact ⟨[info], info, rfl, rfl, hne⟩
      obtain ⟨t, s1, ht, _, hok⟩ := fetchBossData_readable parse _ a s hread
      refine ⟨t, s1, ?_, ?_, ?_⟩
      · rw [e, fetchBossDataJson_typed parse _ _ hview, ht]
      · intro hf
        exact absurd hs (hf r rfl)
      · intro r1 j1 lastInfo1 info1 hr1 _ hb1 hlast1 hinfo1
        cases hr1
        rw [hb] at hb1
        cases hb1
        rw [hlast] at hlast1
        cases hlast1
        rw [hinfo] at hinfo1
        cases hinfo1
        exact hok _ [info] info rfl hs rfl rfl
    · refine ⟨emptyBoosData a, s, by simp [fetchBossDataJson, hs, e], fun _ => rfl, ?_⟩
      intro r1 j lastInfo info hr1 hs1
      cases hr1
      exact absurd hs1 hs

/-- C6 (amended): when every status 200 answer has a body that parses to a JSON value
whose last element reads as a record (an object with strings `startTime` and `endTime`
whose `phases`, if an array, is non-empty and holds objects with integers `lapFrom` and
`lapTo` and an array `bosses` of objects with integer `unitId` and `hp` and string
`name`), `updateBossData` returns; the returned object holds the JSON values of a typed
dataset in which a region whose fetch failed has its five members empty, and a region
whose fetch succeeded has them read from the last record of its own answer (empty when
that record's `phases` is not an array). -/
theorem updateBossDataJson_regions (parse : String → Int) (net : JsonNetwork)
    (store : FileStore) (h : ∀ a, ReadableJson (net.clanBattleInfos a)) :
    ∃ r d, updateBossDataJson parse net store = .ok r ∧ r.jbossData = d.toJson ∧
      ∀ a,
        (FetchFailed (net.clanBattleInfos a) → RegionEmpty d a) ∧
        (∀ resp j lastInfo info, net.clanBattleInfos a = some resp → resp.status = OK_200 →
          resp.body = .value j → j.last = .ok lastInfo →
          ClanBattleInfo.ofJson lastInfo = some info →
            (info.phases = none → RegionEmpty d a) ∧
            (∀ first rest, info.phases = some (first :: rest) →
              RegionPopulated parse d a info first rest)) := by
  obtain ⟨cn, s1, h1, f1, p1⟩ := fetchBossDataJson_readable parse _ .cn [] (h .cn)
  obtain ⟨tw, s2, h2, f2, p2⟩ := fetchBossDataJson_readable parse _ .tw s1 (h .tw)
  obtain ⟨jp, s3, h3, f3, p3⟩ := fetchBossDataJson_readable parse _ .jp s2 (h .jp)
  have e2 : ∀ a, jsonTupleOf cn.toJson tw.toJson jp.toJson a =
      (tupleOf cn tw jp a).toJson := by
    intro a
    cases a <;> rfl
  have hrun : updateBossDataJson parse net store = .ok
      { jbossData :=
          { boss_hp := fun a => (jsonTupleOf cn.toJson tw.toJson jp.toJson a).itBossHP
            lap_range := fun a => (jsonTupleOf cn.toJson tw.toJson jp.toJson a).itLapRange
            boss_id := fun a => (jsonTupleOf cn.toJson tw.toJson jp.toJson a).itBossId
            boss_name := fun a => (jsonTupleOf cn.toJson tw.toJson jp.toJson a).itBossName
            time_range := fun a => (jsonTupleOf cn.toJson tw.toJson jp.toJson a).itTimeRange }
        visited := s3
        store := (fetchBossIcon net.icon s3 (store, [])).1
        requests := (fetchBossIcon net.icon s3 (store, [])).2 } := by
    simp only [updateBossDataJson, h1, h2, h3]
  refine ⟨_, { boss_hp := fun a => (tupleOf cn tw jp a).itBossHP
               lap_range := fun a => (tupleOf cn tw jp a).itLapRange
               boss_id := fun a => (tupleOf cn tw jp a).itBossId
               boss_name := fun a => (tupleOf cn tw jp a).itBossName
               time_range := fun a => (tupleOf cn tw jp a).itTimeRange }, hrun, ?_, ?_⟩
  · simp only [BossData.toJson, e2]
    rfl
  · have key : ∀ a, (FetchFailed (net.clanBattleInfos a) → tupleOf cn tw jp a = emptyBoosData a) ∧
        (∀ r j lastInfo info, net.clanBattleInfos a = some r → r.status = OK_200 →
          r.body = .value j → j.last = .ok lastInfo →
          ClanBattleInfo.ofJson lastInfo = some info →
          (info.phases = none → tupleOf cn tw jp a = emptyBoosData a) ∧
          (∀ first rest, info.phases = some (first :: rest) →
            tupleOf cn tw jp a =
              { itArea := a
                itBossHP := (first :: rest).map (fun p => p.bosses.map (fun b => b.hp))
                itLapRange := setLastLapTo ((first :: rest).map (fun p => (p.lapFrom, p.lapTo)))
                itBossId := first.bosses.map (fun b => b.unitId)
                itBossName := first.bosses.map (fun b => b.name)
                itTimeRange := [parse info.startTime, parse info.endTime] })) := by
      intro a
      cases a
      · exact ⟨f1, p1⟩
      · exact ⟨f2, p2⟩
      · exact ⟨f3, p3⟩
    intro a
    obtain ⟨hfail, hok⟩ := key a
    constructor
    · intro hf
      have := hfail hf
      simp only [RegionEmpty, this, emptyBoosData, and_self]
    · intro resp j lastInfo info hr hs hb hl hi
      obtain ⟨hnone, hsome⟩ := hok resp j lastInfo info hr hs hb hl hi
      constructor
      · intro hn
        have := hnone hn
        simp only [RegionEmpty, this, emptyBoosData, and_self]
      · intro first rest hfr
        have := hsome first rest hfr
        simp only [RegionPopulated, this, and_self]

/-! ## Aggregation: identifiers and icons -/

theorem getPhase_no_range (bossData : BossData) (gameServer : Area) (lap : Int)
    (h : ∀ r ∈ bossData.lap_range gameServer, ¬ (r.1 ≤ lap ∧ lap ≤ r.2)) :
    getPhase bossData lap gameServer = toInt8 (bossData.lap_range gameServer).length := by
  unfold getPhase
  rw [getPhaseLoop_none lap _ 0 h, zero_add]

/-- C2, evaluation: on the ranges `fetchBossData` writes for the phases `[0,10]` and
`[11,20]`, that is `[(0,10),(11,999)]`, `getPhase` returns 0 on `[0,10]`, 1 on `[11,999]`
and 2, the length of the list, for lap 1000. -/
theorem getPhase_beyond_sentinel :
    ∃ r, updateBossData sampleSeconds (sampleNetwork noIcon) noFile = .ok r ∧
      r.jbossData.lap_range .cn = [(0, 10), (11, 999)] ∧
      getPhase r.jbossData 0 .cn = 0 ∧ getPhase r.jbossData 10 .cn = 0 ∧
      getPhase r.jbossData 11 .cn = 1 ∧ getPhase r.jbossData 999 .cn = 1 ∧
      getPhase r.jbossData 1000 .cn = 2 :=
  ⟨_, rfl, by decide, by decide, by decide, by decide, by decide, by decide⟩

theorem sampleJsonInfo_typed (ids : List Int) (h : ∀ i ∈ ids, toInt64 i = i) :
    ClanBattleInfo.ofJson (sampleJsonInfo ids) = some (sampleInfo ids) := by
  have hb : readAll Boss.ofJson (ids.map sampleJsonBoss) = some (sampleRoster ids) := by
    induction ids with
    | nil => rfl
    | cons i rest ih =>
      have hi : toInt64 i = i := h i (List.mem_cons_self _ _)
      have hr := ih (fun j hj => h j (List.mem_cons_of_mem _ hj))
      simp only [List.map_cons, readAll, hr, sampleRoster]
      simp [sampleJsonBoss, Boss.ofJson, List.lookup, hi]
  simp [sampleJsonInfo, ClanBattleInfo.ofJson, List.lookup, readAll, Phase.ofJson, hb, sampleInfo]

theorem sampleJsonNetwork_typed (icon : String → Option (Response String)) :
    ∀ a, TypedView ((sampleJsonNetwork icon).clanBattleInfos a)
      ((sampleNetwork icon).clanBattleInfos a) := by
  intro a
  cases a
  · exact ⟨rfl, fun _ => ⟨_, _, rfl, sampleJsonInfo_typed _ (by decide), rfl⟩⟩
  · exact ⟨rfl, fun _ => ⟨_, _, rfl, sampleJsonInfo_typed _ (by decide), rfl⟩⟩
  · trivial

theorem sampleJsonNetwork_readable (icon : String → Option (Response String)) :
    ∀ a, ReadableJson ((sampleJsonNetwork icon).clanBattleInfos a) := by
  intro a
  cases a
  · intro r hr _
    cases hr
    exact ⟨_, _, _, rfl, rfl, sampleJsonInfo_typed _ (by decide), by decide⟩
  · intro r hr _
    cases hr
    exact ⟨_, _, _, rfl, rfl, sampleJsonInfo_typed _ (by decide), by decide⟩
  · intro r hr _
    cases hr

/-- C6, counterexample: a status 200 answer whose body is not JSON makes `updateBossData`
end with the parser's `parse_error`, and the JSON body `[{"phases":[{"bosses":[{}]}]}]`,
whose boss entry has no `unitId`, makes it end with the `type_error` of
`get<json::number_integer_t>()`; neither call returns. -/
theorem updateBossDataJson_unreadable_body :
    updateBossDataJson sampleSeconds malformedJsonNetwork noFile = .error .parse_error ∧
    updateBossDataJson sampleSeconds untypedJsonNetwork noFile = .error .type_error :=
  ⟨rfl, rfl⟩

/-- C6, instance: the sample network, where `cn` and `tw` answer and `jp` does not. -/
theorem updateBossDataJson_regions_witness :
    (∀ a, ReadableJson ((sampleJsonNetwork noIcon).clanBattleInfos a)) ∧
    ∃ r d, updateBossDataJson sampleSeconds (sampleJsonNetwork noIcon) noFile = .ok r ∧
      r.jbossData = d.toJson ∧
      ∀ a,
        (FetchFailed ((sampleJsonNetwork noIcon).clanBattleInfos a) → RegionEmpty d a) ∧
        (∀ resp j lastInfo info, (sampleJsonNetwork noIcon).clanBattleInfos a = some resp →
          resp.status = OK_200 → resp.body = .value j → j.last = .ok lastInfo →
          ClanBattleInfo.ofJson lastInfo = some info →
            (info.phases = none → RegionEmpty d a) ∧
            (∀ first rest, info.phases = some (first :: rest) →
              RegionPopulated sampleSeconds d a info first rest)) :=
  ⟨sampleJsonNetwork_readable noIcon,
    updateBossDataJson_regions sampleSeconds (sampleJsonNetwork noIcon) noFile
      (sampleJsonNetwork_readable noIcon)⟩

theorem updateBossDataJson_sampleNetwork (icon : String → Option (Response String))
    (store : FileStore) :
    updateBossDataJson sampleSeconds (sampleJsonNetwork icon) store =
      match updateBossData sampleSeconds (sampleNetwork icon) store with
      | .ok r => .ok r.toJson
      | .error f => .error f :=
  updateBossDataJson_typed sampleSeconds (sampleJsonNetwork icon) (sampleNetwork icon)
    (sampleJsonNetwork_typed icon) rfl store

theorem updateBossDataJson_sample :
    ∃ r, updateBossDataJson sampleSeconds (sampleJsonNetwork noIcon) noFile = .ok r ∧
      r.jbossData.boss_id .cn = [1000, 1001, 1002, 1003, 1004] ∧
      r.jbossData.boss_id .tw = [1000, 2001, 2002, 2003, 2004] ∧
      r.jbossData.boss_id .jp = [] ∧
      r.jbossData.lap_range .cn = [(.number 0, .number 10), (.number 11, .number 999)] ∧
      r.jbossData.lap_range .jp = [] ∧
      r.jbossData.time_range .cn = [25, 25] ∧
      r.visited = [1000, 1001, 1002, 1003, 1004, 2001, 2002, 2003, 2004] :=
  ⟨_, rfl, rfl, rfl, rfl, rfl, rfl, rfl, rfl⟩

theorem toUInt64_natCast (n : Nat) (h : n < 2 ^ 64) : toUInt64 (n : Int) = n := by
  unfold toUInt64
  have h' : ((n : Int)) % 18446744073709551616 = n := by
    apply Int.emod_eq_of_lt <;> omega
  rw [h']
  simp

theorem toUInt64_sub (a b : Nat) (h : b ≤ a) (ha : a < 2 ^ 64) :
    toUInt64 ((a : Int) - b) = a - b := by
  have := toUInt64_natCast (a - b) (by omega)
  rwa [Nat.cast_sub h] at this

theorem HPRectW_exact (texW : Nat) :
    HPRectW Rounding.exact texW = .fin (460 - ((texW / 8 * 5 : Nat) : ℚ) - 40) := by
  simp [HPRectW, iconRectW, ofU64, fsub, Rounding.exact]

/-- C3: for a pair with `0 < total` and `current ≤ total`, the width computed for its bar is
`HPRect.w * (total - current) / total`: as `float` operations under any rounding, and
as that rational number under exact arithmetic. -/
theorem refreshTotalProgress_rect_width (R : Rounding) (texW : Nat)
    (progresses : Fin 2 → Progress) (i : Fin 2) (htot : 0 < (progresses i).2)
    (hle : (progresses i).1 ≤ (progresses i).2) (h64 : (progresses i).2 < 2 ^ 64) :
    (refreshTotalProgress R texW progresses).rectW i =
        fdiv R (fmul R (HPRectW R texW) (ofU64 R ((progresses i).2 - (progresses i).1)))
          (ofU64 R (progresses i).2) ∧
      (refreshTotalProgress Rounding.exact texW progresses).rectW i =
        .fin ((460 - ((texW / 8 * 5 : Nat) : ℚ) - 40) *
          (((progresses i).2 - (progresses i).1 : Nat) : ℚ) / ((progresses i).2 : ℚ)) := by
  have hu := toUInt64_sub _ _ hle h64
  have hq : ((progresses i).2 : ℚ) ≠ 0 := by
    have : (0 : ℚ) < (progresses i).2 := by exact_mod_cast htot
    exact ne_of_gt this
  constructor
  · simp only [refreshTotalProgress, totalRectW, hu]
  · simp only [refreshTotalProgress, totalRectW, hu, HPRectW_exact]
    simp [fmul, fdiv, ofU64, Rounding.exact, hq]

/-- C3, instance: `current = 30`, `total = 100` with a 128 pixel icon give
`340 * 70 / 100 = 238`. -/
theorem refreshTotalProgress_rect_width_witness :
    (0 < ((![(30, 100), (1, 5)] : Fin 2 → Progress) 0).2 ∧
      ((![(30, 100), (1, 5)] : Fin 2 → Progress) 0).1 ≤
        ((![(30, 100), (1, 5)] : Fin 2 → Progress) 0).2 ∧
      ((![(30, 100), (1, 5)] : Fin 2 → Progress) 0).2 < 2 ^ 64) ∧
    (refreshTotalProgress Rounding.exact 128 ![(30, 100), (1, 5)]).rectW 0 =
      .fin (340 * 70 / 100) := by
  have h1 : 0 < ((![(30, 100), (1, 5)] : Fin 2 → Progress) 0).2 := by decide
  have h2 : ((![(30, 100), (1, 5)] : Fin 2 → Progress) 0).1 ≤
      ((![(30, 100), (1, 5)] : Fin 2 → Progress) 0).2 := by decide
  have h3 : ((![(30, 100), (1, 5)] : Fin 2 → Progress) 0).2 < 2 ^ 64 := by
    show (100 : Nat) < 2 ^ 64
    norm_num
  refine ⟨⟨h1, h2, h3⟩, ?_⟩
  have h := (refreshTotalProgress_rect_width Rounding.exact 128 ![(30, 100), (1, 5)] 0
    h1 h2 h3).2
  rw [h]
  norm_num

theorem ofU64_pos (R : Rounding) (n : Nat) (h : 0 < n) : ∃ q, ofU64 R n = .fin q ∧ 0 < q :=
  ⟨R.rnd n, rfl, R.rnd_pos _ (by exact_mod_cast h)⟩

/-- C4, counterexample: with total zero the label is "∞" only because the current value is
zero, and the bar width is a NaN produced by dividing zero by zero; with current 5 and
total 0 the label is "5/0" and the width is infinite. -/
theorem refreshTotalProgress_total_zero :
    (refreshTotalProgress Rounding.exact 128 ![(3600, 86400), (0, 0)]).lapRangeStr = "∞" ∧
    (refreshTotalProgress Rounding.exact 128 ![(3600, 86400), (0, 0)]).rectW 1 = .nan ∧
    (refreshTotalProgress Rounding.exact 128 ![(3600, 86400), (5, 0)]).lapRangeStr = "5/0" ∧
    (refreshTotalProgress Rounding.exact 128 ![(3600, 86400), (5, 0)]).rectW 1 = .pinf := by
  refine ⟨by decide, ?_, by decide, ?_⟩
  · norm_num [refreshTotalProgress, totalRectW, HPRectW, iconRectW, ofU64, fsub, fmul, fdiv,
      Rounding.exact, toUInt64]
  · norm_num [refreshTotalProgress, totalRectW, HPRectW, iconRectW, ofU64, fsub, fmul, fdiv,
      Rounding.exact, toUInt64]

/-- C4 (amended): the "∞" label is selected by a current value of zero, which is what
`PrepareRenderData` stores when the upper bound of the range is the sentinel 999; with a
positive total the width of the bar is `HPRect.w * total / total`, the divisor is not
zero, and under exact arithmetic the bar has the full width of the column. -/
theorem refreshTotalProgress_infinity (R : Rounding) (texW : Nat)
    (progresses : Fin 2 → Progress) (hcur : (progresses 1).1 = 0) :
    (refreshTotalProgress R texW progresses).lapRangeStr = "∞" ∧
    (0 < (progresses 1).2 → (progresses 1).2 < 2 ^ 64 →
      (refreshTotalProgress R texW progresses).rectW 1 =
        fdiv R (fmul R (HPRectW R texW) (ofU64 R (progresses 1).2))
          (ofU64 R (progresses 1).2) ∧
      ofU64 R (progresses 1).2 ≠ .fin 0 ∧
      (refreshTotalProgress Rounding.exact texW progresses).rectW 1 =
        HPRectW Rounding.exact texW) ∧
    ∀ lap lapMin : Int, (lapProgress lap lapMin 999).1 = 0 := by
  refine ⟨?_, ?_, ?_⟩
  · simp [refreshTotalProgress, lapRangeStr, hcur]
  · intro htot h64
    have hu := toUInt64_natCast _ h64
    have hq : ((progresses 1).2 : ℚ) ≠ 0 := by
      have : (0 : ℚ) < (progresses 1).2 := by exact_mod_cast htot
      exact ne_of_gt this
    refine ⟨?_, ?_, ?_⟩
    · simp only [refreshTotalProgress, totalRectW, hcur, Nat.cast_zero, sub_zero, hu]
    · obtain ⟨q, hq1, hq2⟩ := ofU64_pos R _ htot
      rw [hq1]
      intro h
      injection h with h
      exact absurd h (ne_of_gt hq2)
    · simp only [refreshTotalProgress, totalRectW, hcur, Nat.cast_zero, sub_zero, hu,
        HPRectW_exact]
      simp [fmul, fdiv, ofU64, Rounding.exact, hq]
  · intro lap lapMin
    simp [lapProgress]

/-- C4, instance: the pair `(0, 955)` that `PrepareRenderData` builds for the range
`[45, 999]`. -/
theorem refreshTotalProgress_infinity_witness :
    ((![(3600, 86400), lapProgress 50 45 999] : Fin 2 → Progress) 1).1 = 0 ∧
    (refreshTotalProgress Rounding.exact 128 ![(3600, 86400), lapProgress 50 45 999]).lapRangeStr
      = "∞" ∧
    (refreshTotalProgress Rounding.exact 128 ![(3600, 86400), lapProgress 50 45 999]).rectW 1
      = .fin 340 := by
  have h1 : ((![(3600, 86400), lapProgress 50 45 999] : Fin 2 → Progress) 1).1 = 0 := by decide
  have h2 : 0 < ((![(3600, 86400), lapProgress 50 45 999] : Fin 2 → Progress) 1).2 := by decide
  have h3 : ((![(3600, 86400), lapProgress 50 45 999] : Fin 2 → Progress) 1).2 < 2 ^ 64 := by
    show toUInt64 (999 - 45 + 1) < 2 ^ 64
    decide
  have h := refreshTotalProgress_infinity Rounding.exact 128
    ![(3600, 86400), lapProgress 50 45 999] h1
  refine ⟨h1, h.1, ?_⟩
  rw [(h.2.1 h2 h3).2.2, HPRectW_exact]
  norm_num

theorem flt_zero_fin (x : FloatV) (h : flt (.fin 0) x = true) :
    x = .pinf ∨ ∃ q, x = .fin q ∧ 0 < q := by
  cases x with
  | fin q => exact Or.inr ⟨q, rfl, by simpa [flt] using h⟩
  | pinf => exact Or.inl rfl
  | ninf => simp [flt] at h
  | nan => simp [flt] at h

/-- The clamp of `refreshBossProgress` on rationals. -/
theorem HPProgressW_exact (texW : Nat) (progress : Progress) (htot : 0 < progress.2) :
    HPProgressW Rounding.exact texW progress =
      .fin (if (460 - ((texW / 8 * 5 : Nat) : ℚ) - 40) * progress.1 / progress.2 < 1 ∧
              0 < (460 - ((texW / 8 * 5 : Nat) : ℚ) - 40) * progress.1 / progress.2
            then 1 else (460 - ((texW / 8 * 5 : Nat) : ℚ) - 40) * progress.1 / progress.2) := by
  have hq : ((progress.2 : ℚ)) ≠ 0 := by
    have : (0 : ℚ) < progress.2 := by exact_mod_cast htot
    exact ne_of_gt this
  have he : (460 - ((texW / 8 * 5 : Nat) : ℚ) - 40) / progress.2 * progress.1 =
      (460 - ((texW / 8 * 5 : Nat) : ℚ) - 40) * progress.1 / progress.2 := by
    field_simp
  simp only [HPProgressW, HPRectW_exact]
  simp only [fmul, fdiv, ofU64, Rounding.exact, hq, if_false, he, flt, Bool.and_eq_true,
    decide_eq_true_eq]
  split <;> rfl

theorem HPProgressW_ge_one (R : Rounding) (texW : Nat) (progress : Progress)
    (htot : 0 < progress.2) (hcur : 0 < progress.1) (w : ℚ) (hw : HPRectW R texW = .fin w)
    (hpos : 0 < w) :
    ∃ q, HPProgressW R texW progress = .fin q ∧ 1 ≤ q := by
  have ht : 0 < R.rnd progress.2 := R.rnd_pos _ (by exact_mod_cast htot)
  have hc : 0 < R.rnd progress.1 := R.rnd_pos _ (by exact_mod_cast hcur)
  have hd : 0 < R.rnd (w / R.rnd progress.2) := R.rnd_pos _ (div_pos hpos ht)
  have hv : 0 < R.rnd (R.rnd (w / R.rnd progress.2) * R.rnd progress.1) :=
    R.rnd_pos _ (mul_pos hd hc)
  simp only [HPProgressW, hw, ofU64, fdiv, fmul, ne_of_gt ht, if_false, flt,
    Bool.and_eq_true, decide_eq_true_eq]
  by_cases h1 : R.rnd (R.rnd (w / R.rnd progress.2) * R.rnd progress.1) < 1
  · exact ⟨1, by simp [h1, hv], le_refl _⟩
  · exact ⟨_, by simp [h1], not_lt.1 h1⟩

/-- C5, counterexample: with an icon texture 672 pixels wide the HP column has width
`460 - 420 - 40 = 0`, and the filled width for `current = 1`, `total = 1` is 0, not at
least 1. -/
theorem refreshBossProgress_zero_column :
    HPRectW Rounding.exact 672 = .fin 0 ∧
    ∃ d ∈ refreshBossProgress Rounding.exact 672 10 (fun _ => false) (fun _ => (1, 1)),
      d.slot = 4 ∧ d.HPProgressW = .fin 0 := by
  have hw : HPRectW Rounding.exact 672 = .fin 0 := by
    rw [HPRectW_exact]
    norm_num
  refine ⟨hw, _, List.mem_map.2 ⟨4, by decide, rfl⟩, rfl, ?_⟩
  show HPProgressW Rounding.exact 672 (1, 1) = .fin 0
  rw [HPProgressW_exact 672 (1, 1) (by decide)]
  norm_num

/-- C5 (amended): for every slot whose pair has `0 < total`, the filled width is
`HPRect.w / total * current`, replaced by 1 when that value lies strictly between 0 and
1; under exact arithmetic it is `HPRect.w * current / total` with the same replacement;
and it is at least 1 whenever `current > 0` and the HP column has a positive width. -/
theorem refreshBossProgress_filled_width (R : Rounding) (texW lap : Nat)
    (lapFlags : Fin 5 → Bool) (progresses : Fin 5 → Progress) (i : Fin 5)
    (htot : 0 < (progresses i).2) :
    (∃ d ∈ refreshBossProgress R texW lap lapFlags progresses, d.slot = i ∧
      d.HPProgressW =
        (if flt (fmul R (fdiv R (HPRectW R texW) (ofU64 R (progresses i).2))
                (ofU64 R (progresses i).1)) (.fin 1) &&
            flt (.fin 0) (fmul R (fdiv R (HPRectW R texW) (ofU64 R (progresses i).2))
                (ofU64 R (progresses i).1))
          then .fin 1
          else fmul R (fdiv R (HPRectW R texW) (ofU64 R (progresses i).2))
                (ofU64 R (progresses i).1)) ∧
      (0 < (progresses i).1 → ∀ w, HPRectW R texW = .fin w → 0 < w →
        ∃ q, d.HPProgressW = .fin q ∧ 1 ≤ q)) ∧
    (∃ d ∈ refreshBossProgress Rounding.exact texW lap lapFlags progresses, d.slot = i ∧
      d.HPProgressW =
        .fin (if (460 - ((texW / 8 * 5 : Nat) : ℚ) - 40) * (progresses i).1 / (progresses i).2 < 1 ∧
                0 < (460 - ((texW / 8 * 5 : Nat) : ℚ) - 40) * (progresses i).1 / (progresses i).2
              then 1
              else (460 - ((texW / 8 * 5 : Nat) : ℚ) - 40) * (progresses i).1 /
                (progresses i).2)) := by
  have hmem : i ∈ ([4, 3, 2, 1, 0] : List (Fin 5)) := by
    fin_cases i <;> decide
  constructor
  · refine ⟨_, List.mem_map.2 ⟨i, hmem, rfl⟩, rfl, rfl, ?_⟩
    intro hcur w hw hpos
    exact HPProgressW_ge_one R texW (progresses i) htot hcur w hw hpos
  · refine ⟨_, List.mem_map.2 ⟨i, hmem, rfl⟩, rfl, ?_⟩
    exact HPProgressW_exact texW (progresses i) htot

/-- C5, instance: one point of HP left out of six million, with a 128 pixel icon: the
exact value `340 / 6000000` is raised to 1. -/
theorem refreshBossProgress_filled_width_witness :
    0 < ((fun _ => (1, 6000000) : Fin 5 → Progress) 4).2 ∧
    ∃ d ∈ refreshBossProgress Rounding.exact 128 10 (fun _ => false) (fun _ => (1, 6000000)),
      d.slot = 4 ∧ d.HPProgressW = .fin 1 := by
  have h0 : 0 < ((fun _ => (1, 6000000) : Fin 5 → Progress) 4).2 := by decide
  obtain ⟨d, hd, hs, hw⟩ := (refreshBossProgress_filled_width Rounding.exact 128 10
    (fun _ => false) (fun _ => (1, 6000000)) 4 h0).2
  refine ⟨h0, d, hd, hs, ?_⟩
  rw [hw]
  norm_num

/-! ## The event loop -/

/-- C8, evaluation: when the push fails `postDrawProcess` returns false and enqueues
nothing, yet `Progress` and `Update` wait on the future all the same, and the wait never
ends: alone, and also when other jobs and a `QUIT` follow. With a successful push the
same request yields its image. -/
theorem postAndWait_push_failed :
    (postDrawProcess false ([] : List (PaintEvent Nat String)) (drawBy 1) 1).1 = false ∧
    (postDrawProcess false ([] : List (PaintEvent Nat String)) (drawBy 1) 1).2.length = 0 ∧
    Progress_request sampleRenderer toString false [] [] samplePaint (drawBy 1) 1 = none ∧
    Update_request sampleRenderer false [] [] samplePaint (drawBy 1) 1 = none ∧
    Progress_request sampleRenderer toString false []
      [.DRAW_PROCESS (drawBy 2) 2, .QUIT] samplePaint (drawBy 1) 1 = none ∧
    Progress_request sampleRenderer toString true [] [] samplePaint (drawBy 1) 1 = some "1" := by
  refine ⟨rfl, rfl, rfl, rfl, rfl, ?_⟩
  decide

/-- C9, counterexample: a job event whose closure throws is processed, the exception
leaves `mainLoop`, and no `set_value` is made for its promise. -/
theorem mainLoop_throwing_job_unfulfilled :
    (mainLoop sampleRenderer [.DRAW_PROCESS drawThrows 7] samplePaint).invoked = [7] ∧
    (mainLoop sampleRenderer [.DRAW_PROCESS drawThrows 7] samplePaint).fulfilled = [] ∧
    futureGet (mainLoop sampleRenderer [.DRAW_PROCESS drawThrows 7] samplePaint).fulfilled 7
      = none := by
  decide

theorem mainLoop_append {σ ε Img : Type} (E : Renderer σ Img)
    (pre rest : List (PaintEvent σ ε)) :
    ∀ p q : Paint σ Img, mainLoop E pre p = .waitFailed q →
      mainLoop E (pre ++ rest) p = mainLoop E rest q := by
  induction pre with
  | nil =>
    intro p q h
    simp only [mainLoop] at h
    injection h with h
    subst h
    rfl
  | cons e pre ih =>
    intro p q h
    cases e with
    | DRAW_PROCESS process promise =>
      simp only [List.cons_append, mainLoop] at h ⊢
      cases hp : process p.renderer with
      | error x => rw [hp] at h; cases h
      | ok r =>
        rw [hp] at h
        simp only at h ⊢
        split at h
        · cases h
        · rename_i hnot
          simp only [hnot, if_false]
          exact ih _ _ h
    | MOUSE_BUTTON_UP => exact ih p q (by simpa [mainLoop] using h)
    | QUIT => simp [mainLoop] at h
    | other t => exact ih p q (by simpa [mainLoop] using h)

theorem mainLoop_keeps_fulfilled {σ ε Img : Type} (E : Renderer σ Img)
    (events : List (PaintEvent σ ε)) (promise : Nat) (img : Img) :
    ∀ p : Paint σ Img,
      (p.fulfilled.map (fun f => f.1)).count promise = 1 ∧ (promise, img) ∈ p.fulfilled →
      ((mainLoop E events p).fulfilled.map (fun f => f.1)).count promise = 1 ∧
        (promise, img) ∈ (mainLoop E events p).fulfilled := by
  induction events with
  | nil => intro p h; simpa [mainLoop, LoopEnd.fulfilled] using h
  | cons e events ih =>
    intro p h
    cases e with
    | DRAW_PROCESS process pr =>
      simp only [mainLoop]
      cases process p.renderer with
      | error x => simpa [LoopEnd.fulfilled] using h
      | ok r =>
        simp only
        split
        · simpa [LoopEnd.fulfilled] using h
        · rename_i hnot
          apply ih
          have hne : pr ≠ promise := by
            intro heq
            apply hnot
            rw [heq]
            exact List.mem_map_of_mem (fun f => f.1) h.2
          constructor
          · simp only [List.map_append, List.map_cons, List.map_nil, List.count_append, h.1]
            have : List.count promise [pr] = 0 :=
              List.count_eq_zero.2 (by simpa using hne.symm)
            rw [this]
          · exact List.mem_append_left _ h.2
    | MOUSE_BUTTON_UP => simpa [mainLoop] using ih p h
    | QUIT => simpa [mainLoop, LoopEnd.fulfilled] using h
    | other t => simpa [mainLoop] using ih p h

/-- C9 (amended): a job event the loop reaches (it gets through the events `pre` before it
and arrives in the state `q`) whose closure returns normally, and whose promise holds no
value yet, has its promise fulfilled exactly once, with the snapshot taken after its
closure, however the loop goes on afterwards. -/
theorem mainLoop_fulfils_once {σ ε Img : Type} (E : Renderer σ Img)
    (pre post : List (PaintEvent σ ε)) (p q : Paint σ Img)
    (process : σ → Except ε σ) (promise : Nat) (r : σ)
    (hpre : mainLoop E pre p = .waitFailed q)
    (hret : process q.renderer = .ok r)
    (hfresh : promise ∉ q.fulfilled.map (fun f => f.1)) :
    ((mainLoop E (pre ++ .DRAW_PROCESS process promise :: post) p).fulfilled.map
        (fun f => f.1)).count promise = 1 ∧
      (promise, (E.SaveSurface r).1) ∈
        (mainLoop E (pre ++ .DRAW_PROCESS process promise :: post) p).fulfilled := by
  rw [mainLoop_append E pre _ p q hpre]
  simp only [mainLoop, hret, hfresh, if_false]
  apply mainLoop_keeps_fulfilled
  constructor
  · simp only [List.map_append, List.map_cons, List.map_nil, List.count_append,
      List.count_eq_zero.2 hfresh, zero_add]
    simp
  · simp

/-- C9, instance: job 2 returns and is followed by a job that throws; its promise is
fulfilled once, with the snapshot 5 taken after its closure. -/
theorem mainLoop_fulfils_once_witness :
    mainLoop sampleRenderer
        ([.MOUSE_BUTTON_UP, .DRAW_PROCESS (drawBy 2) 1] : List (PaintEvent Nat String))
        samplePaint
      = .waitFailed { renderer := 2, invoked := [1], fulfilled := [(1, 2)] } ∧
    ((mainLoop sampleRenderer
        ([.MOUSE_BUTTON_UP, .DRAW_PROCESS (drawBy 2) 1] ++
          .DRAW_PROCESS (drawBy 3) 2 :: [.DRAW_PROCESS drawThrows 3, .QUIT])
        samplePaint).fulfilled.map (fun f => f.1)).count 2 = 1 ∧
    ((2 : Nat), (5 : Nat)) ∈
      (mainLoop sampleRenderer
        ([.MOUSE_BUTTON_UP, .DRAW_PROCESS (drawBy 2) 1] ++
          .DRAW_PROCESS (drawBy 3) 2 :: [.DRAW_PROCESS drawThrows 3, .QUIT])
        samplePaint).fulfilled :=
  ⟨rfl,
    mainLoop_fulfils_once sampleRenderer [.MOUSE_BUTTON_UP, .DRAW_PROCESS (drawBy 2) 1]
      [.DRAW_PROCESS drawThrows 3, .QUIT] samplePaint
      { renderer := 2, invoked := [1], fulfilled := [(1, 2)] } (drawBy 3) 2 5 rfl rfl
      (by decide)⟩

theorem PrepareRenderData_ok (statusData : StatusData) (bossData : BossData)
    (currentTime : Int) (rd : RenderData)
    (h : PrepareRenderData statusData bossData currentTime = .ok rd) :
    0 ≤ getPhase bossData statusData.lap DefaultArea ∧
    (getPhase bossData statusData.lap DefaultArea).toNat <
      (bossData.lap_range DefaultArea).length ∧
    rd.lap = statusData.lap ∧
    rd.phase = toInt8 (getPhase bossData statusData.lap DefaultArea + 65) ∧
    (∀ i : Fin 5, rd.lapFlags i = statusData.lap_flags.getD i false) ∧
    (∀ i : Fin 5, (rd.bossProgreses i).1 = toUInt64 (statusData.boss_hps.getD i 0)) ∧
    (∃ startTime endTime rest, bossData.time_range DefaultArea = startTime :: endTime :: rest ∧
      rd.totalProgesses 0 = eventProgress currentTime startTime endTime) := by
  unfold PrepareRenderData at h
  simp only at h
  split at h
  · cases h
  · rename_i hph
    split at h
    · cases h
    · rename_i lapRange hr
      split at h
      · cases h
      · split at h
        · cases h
        · split at h
          · cases h
          · split at h
            · cases h
            · split at h
              · rename_i startTime endTime rest htr
                injection h with h
                subst h
                refine ⟨by omega, ?_, rfl, rfl, fun _ => rfl, fun _ => rfl,
                  ⟨startTime, endTime, rest, htr, rfl⟩⟩
                by_contra hlen
                rw [List.getElem?_eq_none (by omega)] at hr
                cases hr
              · cases h

/-! ## The engine states -/

/-- C11, counterexample: in the state the constructor leaves (no panel prepared),
`refreshBackground` does not fail: it returns, having cleared the target to the colour
of phase `'A'`. -/
theorem refreshBackground_idle_returns :
    paintInit.m_panel = none ∧
    refreshBackground 65 paintInit =
      .ok { m_panel := none, target := [.clear ⟨132, 1, 244, 255⟩] } :=
  ⟨rfl, rfl⟩

/-- C11 (amended): for a phase character from `'A'` to `'E'`, `refreshBackground` returns
in either state and leaves the cached panel as it was: with no panel it clears the
target to the phase colour and draws nothing over it, with a panel it clears and renders
that panel. -/
theorem refreshBackground_keeps_panel (phase : Int) (st : PaintState)
    (h0 : 0 ≤ phase - 65) (h5 : phase - 65 < 5) :
    ∃ color, phaseColor[(phase - 65).toNat]? = some color ∧
      (st.m_panel = none →
        refreshBackground phase st = .ok { m_panel := none, target := [.clear color] }) ∧
      (∀ panel, st.m_panel = some panel →
        refreshBackground phase st =
          .ok { m_panel := some panel, target := [.clear color, .texture panel] }) := by
  have hlt : (phase - 65).toNat < phaseColor.length := by
    have : phaseColor.length = 5 := rfl
    omega
  refine ⟨phaseColor[(phase - 65).toNat], List.getElem?_eq_getElem hlt, ?_, ?_⟩
  · intro hp
    simp only [refreshBackground, not_lt.2 h0, if_false, List.getElem?_eq_getElem hlt, hp]
  · intro panel hp
    simp only [refreshBackground, not_lt.2 h0, if_false, List.getElem?_eq_getElem hlt, hp]

/-- C11, instance: phase `'B'` on a prepared panel. -/
theorem refreshBackground_keeps_panel_witness :
    (0 : Int) ≤ 66 - 65 ∧ (66 : Int) - 65 < 5 ∧
    refreshBackground 66 (preparePanel ![302000, 302100, 302200, 302300, 302400] paintInit) =
      .ok { m_panel := some ["icon/302400.webp", "icon/302300.webp", "icon/302200.webp",
              "icon/302100.webp", "icon/302000.webp"]
            target := [.clear ⟨115, 166, 231, 255⟩,
              .texture ["icon/302400.webp", "icon/302300.webp", "icon/302200.webp",
                "icon/302100.webp", "icon/302000.webp"]] } := by
  obtain ⟨color, hc, _, h⟩ := refreshBackground_keeps_panel 66
    (preparePanel ![302000, 302100, 302200, 302300, 302400] paintInit) (by decide) (by decide)
  refine ⟨by decide, by decide, ?_⟩
  have hcolor : color = ⟨115, 166, 231, 255⟩ := by
    have : phaseColor[((66 : Int) - 65).toNat]? = some ⟨115, 166, 231, 255⟩ := by decide
    rw [this] at hc
    exact (Option.some.inj hc).symm
  rw [h _ rfl, hcolor]
  rfl

/-! ## Request data -/

/-- C15, counterexample: with six lap ranges and a lap in the sixth, `PrepareRenderData`
produces render data whose phase character is `'F'`: `phase - 'A'` is 5, past the end of
the five entries of `phaseColor`. -/
theorem PrepareRenderData_sixth_phase :
    ∃ rd, PrepareRenderData (statusOf 60 sampleFlags sampleHPs)
        (sampleData [(1, 3), (4, 10), (11, 30), (31, 40), (41, 50), (51, 999)]) 1706158800
          = .ok rd ∧
      rd.phase = 70 ∧ rd.phase - 65 = 5 ∧ phaseColor.length = 5 ∧
      ∀ st, refreshBackground rd.phase st = .error .undefined_behaviour :=
  ⟨_, rfl, by decide, by decide, rfl, fun _ => rfl⟩

/-- C15 (amended): when the default region has at most five lap ranges and
`PrepareRenderData` produces render data, the phase character satisfies
`0 ≤ phase - 'A' < 5` and `phaseColor[phase - 'A']` is an entry of the table. -/
theorem PrepareRenderData_phase_in_bounds (statusData : StatusData) (bossData : BossData)
    (currentTime : Int) (rd : RenderData)
    (h : PrepareRenderData statusData bossData currentTime = .ok rd)
    (h5 : (bossData.lap_range DefaultArea).length ≤ 5) :
    0 ≤ rd.phase - 65 ∧ rd.phase - 65 < 5 ∧
      ∃ color, phaseColor[(rd.phase - 65).toNat]? = some color := by
  obtain ⟨h0, hlen, _, hphase, _⟩ := PrepareRenderData_ok _ _ _ _ h
  have h4 : getPhase bossData statusData.lap DefaultArea ≤ 4 := by omega
  have hp : rd.phase = getPhase bossData statusData.lap DefaultArea + 65 := by
    rw [hphase]
    apply toInt8_of_range <;> omega
  have hlt : (rd.phase - 65).toNat < phaseColor.length := by
    have : phaseColor.length = 5 := rfl
    omega
  exact ⟨by omega, by omega, _, List.getElem?_eq_getElem hlt⟩

/-- C15, instance: the sample dataset with two ranges, lap 15 in the second. -/
theorem PrepareRenderData_phase_in_bounds_witness :
    ∃ rd, PrepareRenderData (statusOf 15 sampleFlags sampleHPs)
        (sampleData [(1, 10), (11, 999)]) 1706158800 = .ok rd ∧
      ((sampleData [(1, 10), (11, 999)]).lap_range DefaultArea).length ≤ 5 ∧
      rd.phase = 66 ∧ 0 ≤ rd.phase - 65 ∧ rd.phase - 65 < 5 :=
  ⟨_, rfl, by decide, by decide,
    (PrepareRenderData_phase_in_bounds (statusOf 15 sampleFlags sampleHPs)
      (sampleData [(1, 10), (11, 999)]) 1706158800 _ rfl (by decide)).1,
    (PrepareRenderData_phase_in_bounds (statusOf 15 sampleFlags sampleHPs)
      (sampleData [(1, 10), (11, 999)]) 1706158800 _ rfl (by decide)).2.1⟩

/-! ## The event progress -/

theorem eventProgress_of_seconds (currentTime startTime endTime : Int)
    (h64 : endTime - currentTime < 2 ^ 64) :
    (((eventProgress currentTime startTime endTime).1 : Nat) : Int) =
      secondsRemaining 1 currentTime endTime := by
  unfold eventProgress secondsRemaining toUInt64
  simp only [Nat.cast_one, Int.ediv_one]
  by_cases h : endTime > currentTime
  · simp only [h, if_true]
    rw [Int.emod_eq_of_lt (by omega) (by exact_mod_cast h64), Int.toNat_of_nonneg (by omega)]
    rw [max_eq_right (by omega)]
  · simp only [h, if_false]
    rw [max_eq_left (by omega)]
    rfl

theorem eventProgress_total (currentTime startTime endTime : Int) (hle : startTime ≤ endTime)
    (h64 : endTime - startTime < 2 ^ 64) :
    (((eventProgress currentTime startTime endTime).2 : Nat) : Int) = endTime - startTime := by
  unfold eventProgress toUInt64
  simp only
  rw [Int.emod_eq_of_lt (by omega) (by exact_mod_cast h64), Int.toNat_of_nonneg (by omega)]

/-- C16, evaluation: the clock counts nanoseconds (`1000000000` ticks to the second). One
hour before the end of the window `[1706130000, 1706162400]` the current value of the
event progress is 0, not 3600, and the label reads "0秒" where one hour is left; the
total is `endTime - startTime`. -/
theorem eventProgress_clock_ticks :
    ∃ rd, PrepareRenderData (statusOf 5 sampleFlags sampleHPs)
        (sampleData [(1, 10), (11, 999)]) (1706158800 * 1000000000) = .ok rd ∧
      rd.totalProgesses 0 = (0, 32400) ∧
      secondsRemaining 1000000000 (1706158800 * 1000000000) 1706162400 = 3600 ∧
      (refreshTotalProgress Rounding.exact 128 rd.totalProgesses).scheduleStr
        = "距离会战结束还剩0秒" ∧
      getCountDownStr 3600 = "1小时" :=
  ⟨_, rfl, by decide, by decide, by decide, by decide⟩

/-! ## Icon paths -/

theorem readDecimal_lt (cs : List Char) :
    ∀ a : Nat, (∀ c ∈ cs, c.toNat - 48 ≤ 9) → readDecimal cs a < (a + 1) * 10 ^ cs.length := by
  induction cs with
  | nil => intro a _; simp [readDecimal]
  | cons c cs ih =>
    intro a h
    have hc : c.toNat - 48 ≤ 9 := h c (by simp)
    have := ih (10 * a + (c.toNat - 48)) (fun c' hc' => h c' (by simp [hc']))
    simp only [readDecimal, List.foldl_cons, List.length_cons] at this ⊢
    calc List.foldl (fun a c => 10 * a + (c.toNat - 48)) (10 * a + (c.toNat - 48)) cs
        < (10 * a + (c.toNat - 48) + 1) * 10 ^ cs.length := this
      _ ≤ (10 * a + 10) * 10 ^ cs.length := Nat.mul_le_mul_right _ (by omega)
      _ = (a + 1) * 10 ^ (cs.length + 1) := by ring

theorem toDigitsCore_digits (fuel : Nat) :
    ∀ (n : Nat) (ds : List Char), (∀ c ∈ ds, c.toNat - 48 ≤ 9) →
      ∀ c ∈ Nat.toDigitsCore 10 fuel n ds, c.toNat - 48 ≤ 9 := by
  induction fuel with
  | zero => intro n ds h; simpa [Nat.toDigitsCore] using h
  | succ f ih =>
    intro n ds h
    unfold Nat.toDigitsCore
    have hd : (Nat.digitChar (n % 10)).toNat - 48 ≤ 9 := by
      rw [digitChar_val _ (Nat.mod_lt _ (by decide))]
      have := Nat.mod_lt n (by decide : 0 < 10)
      omega
    have h' : ∀ c ∈ Nat.digitChar (n % 10) :: ds, c.toNat - 48 ≤ 9 := by
      intro c hc
      rcases List.mem_cons.1 hc with hc | hc
      · rw [hc]; exact hd
      · exact h c hc
    by_cases h0 : n / 10 = 0
    · simp only [h0, if_true]
      exact h'
    · simp only [h0, if_false]
      exact ih _ _ h'

theorem toString_length_ge_six (n : Nat) (h : 100000 ≤ n) : 6 ≤ (toString n).length := by
  have hval := readDecimal_toDigitsCore (n + 1) n [] (by omega)
  have hlt := readDecimal_lt (Nat.toDigitsCore 10 (n + 1) n [])
    0 (toDigitsCore_digits (n + 1) n [] (by simp))
  rw [hval] at hlt
  simp only [readDecimal, List.foldl_nil, zero_add, one_mul] at hlt
  have hlen : (toString n).length = (Nat.toDigitsCore 10 (n + 1) n []).length := rfl
  rw [hlen]
  by_contra hshort
  have h5 : (Nat.toDigitsCore 10 (n + 1) n []).length ≤ 5 := by omega
  have : 10 ^ (Nat.toDigitsCore 10 (n + 1) n []).length ≤ 10 ^ 5 :=
    Nat.pow_le_pow_right (by decide) h5
  omega

theorem iconFilepath_eq_panelIconPath (id : Int) (h : 100000 ≤ id) (h64 : id < 2 ^ 64) :
    iconFilepath id = panelIconPath (toUInt64 id) := by
  obtain ⟨n, rfl⟩ := Int.eq_ofNat_of_zero_le (by omega : 0 ≤ id)
  have hn : toUInt64 (n : Int) = n := toUInt64_natCast n (by exact_mod_cast h64)
  have h6 := toString_length_ge_six n (by exact_mod_cast h)
  have hpad : 6 - (toString n).length = 0 := by omega
  have hs : toString (n : Int) = toString n := rfl
  rw [hn]
  unfold iconFilepath iconFilename panelIconPath format06 IconDir
  rw [hpad, hs]
  apply String.ext
  simp [String.data_append]

/-- C14, evaluation: for identifier 1000 `fetchBossIcon` checks and stores
`icon/1000.webp` while `RenderPanelRow` loads `icon/001000.webp`: after a refresh that
fetched every icon, the panel prepared from the roster names a file the store does not
hold. For the six-digit identifier 302000 the two paths are the same. -/
theorem icon_path_mismatch :
    iconFilepath 1000 = "icon/1000.webp" ∧
    panelIconPath (toUInt64 1000) = "icon/001000.webp" ∧
    (∃ r, updateBossData sampleSeconds (sampleNetwork everyIcon) noFile = .ok r ∧
      (1000 : Int) ∈ r.jbossData.boss_id DefaultArea ∧
      r.store (iconFilepath 1000) = some "RIFF" ∧
      r.store (panelIconPath (toUInt64 1000)) = none ∧
      ∃ st, Update_drawProcess r.jbossData paintInit = .ok st ∧
        st.m_panel = some ["icon/001004.webp", "icon/001003.webp", "icon/001002.webp",
          "icon/001001.webp", "icon/001000.webp"]) ∧
    iconFilepath 302000 = panelIconPath (toUInt64 302000) :=
  ⟨by decide, by decide, ⟨_, rfl, by decide, by decide, by decide, _, rfl, by decide⟩,
    by decide⟩

end yobot
